import Mathlib

/-!
Verification development for the DOM renderer row factory of xterm.js
(`DomRendererRowFactory.createRow` and its collaborators).

The row reconciliation engine is embedded shallowly: the per-cell loop of
`createRow` becomes a fuel-indexed recursion over an explicit `RunState`,
HTML span elements become structured run descriptors (`BgRun`, `CharRun`),
colors are rgba words (`Nat`), and the shared mutable caches (width cache,
normal and half-intensity contrast caches) are threaded as explicit state.
Collaborators that are not part of the source tree (cell/attribute storage,
line data, `common/Color` helpers) are modelled from the specification, as
documented on each such definition.
-/

namespace XtermDom

/-- Modelled from the spec: the attribute color modes (default / 16-color /
256-color / true-color) of `common/buffer/Constants` (`Attributes.CM_*`),
which is not part of the source tree. -/
inductive ColorMode
  | cmDefault
  | cmP16
  | cmP256
  | cmRGB
deriving DecidableEq

/-- Modelled from the spec: a read-only cell view (spec section 3).
`CellData` / `AttributeData` (`common/buffer`) are not part of the source
tree; per the spec a cell exposes its character string, visual width, raw
fg/bg attribute values, decoded colors and modes, boolean style flags,
underline sub-style and underline color (with its own mode), an
extended-attribute fingerprint and the character code. Colors are rgba
words encoded as `Nat`. -/
structure Cell where
  chars : String
  width : Nat
  fg : Nat
  bg : Nat
  ext : Nat
  fgColor : Nat
  fgColorMode : ColorMode
  bgColor : Nat
  bgColorMode : ColorMode
  bold : Bool
  dim : Bool
  italic : Bool
  underline : Bool
  overline : Bool
  strikethrough : Bool
  inverse : Bool
  invisible : Bool
  underlineStyle : Nat
  underlineColorDefault : Bool
  underlineColorRGB : Bool
  underlineColor : Nat
  code : Nat
deriving DecidableEq

/-- A blank width-1 cell, read for columns beyond the stored line content. -/
def nullCell : Cell :=
  { chars := "", width := 1, fg := 0, bg := 0, ext := 0, fgColor := 0,
    fgColorMode := ColorMode.cmDefault, bgColor := 0,
    bgColorMode := ColorMode.cmDefault, bold := false, dim := false,
    italic := false, underline := false, overline := false,
    strikethrough := false, inverse := false, invisible := false,
    underlineStyle := 0, underlineColorDefault := true,
    underlineColorRGB := false, underlineColor := 0, code := 0 }

/-- Modelled from the spec: the line-data collaborator (spec section 6):
`loadCell`, `length` (the stored cells), `getNoBgTrimmedLength` (the trimmed
length ignoring trailing default-background cells, kept abstract as a field)
and `translateToString` (string of a column range, used for joined cells). -/
structure BufferLine where
  cells : List Cell
  noBgTrimmedLength : Nat
  translateToString : Nat → Nat → String

/-- `lineData.loadCell(x, cell)`. -/
def loadCell (line : BufferLine) (x : Nat) : Cell :=
  line.cells.getD x nullCell

/-- `JoinedCellData`: concatenated text and combined width, all other
attributes inherited from the first cell of the range. -/
def joinCell (c : Cell) (s : String) (w : Nat) : Cell :=
  { c with chars := s, width := w }

/-- Selection state pushed in via `handleSelectionChanged`. -/
structure SelectionState where
  selectionStart : Option (Nat × Nat)
  selectionEnd : Option (Nat × Nat)
  columnSelectMode : Bool
deriving DecidableEq

/-- `_isRowInSelection` (part_000, lines 545-552). -/
def isRowInSelection (sel : SelectionState) (y : Nat) : Bool :=
  match sel.selectionStart, sel.selectionEnd with
  | some s, some e => decide (s.2 ≤ y ∧ y ≤ e.2)
  | _, _ => false

/-- `_isCellInSelection` (part_000, lines 554-572). -/
def isCellInSelection (sel : SelectionState) (x y : Nat) : Bool :=
  match sel.selectionStart, sel.selectionEnd with
  | some s, some e =>
    if sel.columnSelectMode then
      if s.1 ≤ e.1 then
        decide (s.1 ≤ x ∧ s.2 ≤ y ∧ x < e.1 ∧ y ≤ e.2)
      else
        decide (x < s.1 ∧ s.2 ≤ y ∧ e.1 ≤ x ∧ y ≤ e.2)
    else
      decide ((s.2 < y ∧ y < e.2) ∨
        (s.2 = e.2 ∧ y = s.2 ∧ s.1 ≤ x ∧ x < e.1) ∨
        (s.2 < e.2 ∧ y = e.2 ∧ x < e.1) ∨
        (s.2 < e.2 ∧ y = s.2 ∧ s.1 ≤ x))
  | _, _ => false

/-- The spec's wording of the cell-level selection predicate (spec section
4.2): in column-select mode the lesser endpoint column is the left edge and
the cell must lie in `[leftCol, rightCol)` with its row in range; in normal
mode the four disjuncts (middle row / single-row span / end row / start
row). -/
def specCellInSelection (sel : SelectionState) (x y : Nat) : Bool :=
  match sel.selectionStart, sel.selectionEnd with
  | some s, some e =>
    if sel.columnSelectMode then
      decide (min s.1 e.1 ≤ x ∧ x < max s.1 e.1 ∧ s.2 ≤ y ∧ y ≤ e.2)
    else
      decide ((s.2 < y ∧ y < e.2) ∨
        (s.2 = e.2 ∧ y = s.2 ∧ s.1 ≤ x ∧ x < e.1) ∨
        (s.2 < e.2 ∧ y = e.2 ∧ x < e.1) ∨
        (s.2 < e.2 ∧ y = s.2 ∧ s.1 ≤ x))
  | _, _ => false

/-- Effective row length (part_000, lines 80-83): trimmed length unless the
row is in the selection (full length), then extended to include the cursor
column on the cursor row. -/
def effectiveRowLength (sel : SelectionState) (line : BufferLine) (row : Nat)
    (isCursorRow : Bool) (cursorX : Nat) : Nat :=
  let l := if isRowInSelection sel row then line.cells.length
           else line.noBgTrimmedLength
  if isCursorRow = true ∧ l < cursorX + 1 then cursorX + 1 else l

/-- The spec's wording of the effective row length (claim C3): the trimmed
length ignoring trailing default-background cells, except the full logical
length for rows inside the selection row range, extended to `cursorX + 1`
when the row is the cursor row and the cursor column lies at or beyond that
length. -/
def specEffectiveRowLength (sel : SelectionState) (line : BufferLine)
    (row : Nat) (isCursorRow : Bool) (cursorX : Nat) : Nat :=
  let base := if isRowInSelection sel row then line.cells.length
              else line.noBgTrimmedLength
  if isCursorRow = true ∧ base ≤ cursorX then cursorX + 1 else base

/-- A decoration handle (`IInternalDecoration`): a background-color override,
a foreground-color override (rgba words) and a layer tag. Reference identity
of decoration objects is modelled by a stable handle `id`, as the spec's
design notes direct (spec section 9). -/
structure Decoration where
  id : Nat
  backgroundColorRGB : Option Nat
  foregroundColorRGB : Option Nat
  layerTop : Bool
deriving DecidableEq

/-- Pairwise reference identity of two equal-length decoration lists. -/
def sameDecorationIds : List Decoration → List Decoration → Bool
  | [], [] => true
  | d1 :: r1, d2 :: r2 => d1.id == d2.id && sameDecorationIds r1 r2
  | _, _ => false

/-- `_isSameDecorations` (part_000, lines 574-589). -/
def isSameDecorations (decos1 decos2 : List Decoration) : Bool :=
  if decos1.length == 0 && decos2.length == 0 then true
  else if decos1.length != decos2.length then false
  else sameDecorationIds decos1 decos2

/-- The resolved color set of the theme service: palette, defaults,
selection colors. Colors are rgba words. -/
structure ThemeColors where
  ansi : Nat → Nat
  foreground : Nat
  background : Nat
  selectionBackgroundOpaque : Nat
  selectionInactiveBackgroundOpaque : Nat
  selectionForeground : Option Nat

/-- The working fg/bg values, modes, overrides and top-layer flag during
per-cell color resolution (part_000, lines 221-273). -/
structure OvState where
  fg : Nat
  fgColorMode : ColorMode
  bg : Nat
  bgColorMode : ColorMode
  bgOverride : Option Nat
  fgOverride : Option Nat
  isTop : Bool
deriving DecidableEq

/-- One step of the decoration override scan (part_000, lines 240-255): a
non-top decoration is skipped entirely while `isTop` is set; otherwise its
RGB overrides are applied (forcing true-color mode) and `isTop` is set to
whether this decoration's layer is `top`. -/
def decoStep (st : OvState) (d : Decoration) : OvState :=
  if d.layerTop = false ∧ st.isTop = true then st
  else
    let st1 := match d.backgroundColorRGB with
      | some c => { st with
          bgColorMode := ColorMode.cmRGB
          bg := (c >>> 8) &&& 0xFFFFFF
          bgOverride := some c }
      | none => st
    let st2 := match d.foregroundColorRGB with
      | some c => { st1 with
          fgColorMode := ColorMode.cmRGB
          fg := (c >>> 8) &&& 0xFFFFFF
          fgOverride := some c }
      | none => st1
    { st2 with isTop := d.layerTop }

/-- The full decoration override scan over the decorations at a cell. -/
def applyDecorationOverrides (st : OvState) (ds : List Decoration) : OvState :=
  ds.foldl decoStep st

/-- Claim C4's wording of one scan step: every decoration's RGB override is
applied in decoration order (forcing true-color mode), and the top-layer
flag, once true, is never reset by a later non-top decoration. -/
def specDecoStep (st : OvState) (d : Decoration) : OvState :=
  let st1 := match d.backgroundColorRGB with
    | some c => { st with
        bgColorMode := ColorMode.cmRGB
        bg := (c >>> 8) &&& 0xFFFFFF
        bgOverride := some c }
    | none => st
  let st2 := match d.foregroundColorRGB with
    | some c => { st1 with
        fgColorMode := ColorMode.cmRGB
        fg := (c >>> 8) &&& 0xFFFFFF
        fgOverride := some c }
    | none => st1
  { st2 with isTop := st.isTop || d.layerTop }

/-- The decoration scan as claim C4 words it. -/
def specApplyDecorationOverrides (st : OvState) (ds : List Decoration) :
    OvState :=
  ds.foldl specDecoStep st

/-- Selection overrides (part_000, lines 257-273): applied only when the
cell is not already top-layered; the selection background (opaque if
focused) overrides the background, the cell becomes top-layered, and a
configured selection foreground overrides the foreground. -/
def applySelectionPaint (colors : ThemeColors) (isFocused : Bool)
    (st : OvState) (isInSelection : Bool) : OvState :=
  if st.isTop = false ∧ isInSelection = true then
    let bgOv := if isFocused then colors.selectionBackgroundOpaque
                else colors.selectionInactiveBackgroundOpaque
    let st1 := { st with
        bgOverride := some bgOv
        bg := (bgOv >>> 8) &&& 0xFFFFFF
        bgColorMode := ColorMode.cmRGB
        isTop := true }
    match colors.selectionForeground with
    | some c => { st1 with
        fgColorMode := ColorMode.cmRGB
        fg := (c >>> 8) &&& 0xFFFFFF
        fgOverride := some c }
    | none => st1
  else st

/-- Modelled from the spec: `rgba.toColor(r, g, b)` of `common/Color` (not
in the source tree) — packs channels into an rgba word with full alpha. -/
def toColorRGBA (r g b : Nat) : Nat :=
  (r <<< 24) + (g <<< 16) + (b <<< 8) + 0xFF

/-- Modelled from the spec: `color.multiplyOpacity(c, 0.5)` of
`common/Color` (not in the source tree) — a half-opacity variant keeping
the rgb channels. -/
def multiplyOpacityHalf (c : Nat) : Nat :=
  (c &&& 0xFFFFFF00) ||| ((c &&& 0xFF) / 2)

/-- The per-cell resolved paint state: overrides and modes after inverse,
decorations and selection, plus the resolved background color. -/
structure CellPaint where
  ov : OvState
  isInverse : Bool
  resolvedBg : Nat
deriving DecidableEq

/-- Per-cell color resolution on opening a new run (part_000, lines
221-299): read raw colors and modes, swap on inverse, apply decoration
overrides, apply selection overrides, resolve the background by mode, and
derive the dim background override when no other background override was
produced. -/
def resolveCellPaint (colors : ThemeColors) (isFocused : Bool)
    (decorations : List Decoration) (cell : Cell) (isInSelection : Bool) :
    CellPaint :=
  let isInverse := cell.inverse
  let st0 : OvState :=
    if isInverse then
      { fg := cell.bgColor, fgColorMode := cell.bgColorMode,
        bg := cell.fgColor, bgColorMode := cell.fgColorMode,
        bgOverride := none, fgOverride := none, isTop := false }
    else
      { fg := cell.fgColor, fgColorMode := cell.fgColorMode,
        bg := cell.bgColor, bgColorMode := cell.bgColorMode,
        bgOverride := none, fgOverride := none, isTop := false }
  let st1 := applyDecorationOverrides st0 decorations
  let st2 := applySelectionPaint colors isFocused st1 isInSelection
  let resolvedBg :=
    match st2.bgColorMode with
    | ColorMode.cmP16 => colors.ansi st2.bg
    | ColorMode.cmP256 => colors.ansi st2.bg
    | ColorMode.cmRGB =>
      toColorRGBA (st2.bg >>> 16) ((st2.bg >>> 8) &&& 0xFF) (st2.bg &&& 0xFF)
    | ColorMode.cmDefault =>
      if isInverse then colors.foreground else colors.background
  let st3 :=
    if st2.bgOverride = none ∧ cell.dim = true then
      { st2 with bgOverride := some (multiplyOpacityHalf resolvedBg) }
    else st2
  { ov := st3, isInverse := isInverse, resolvedBg := resolvedBg }

/-- `isPowerlineGlyph` (part_001, lines 17-22). -/
def isPowerlineGlyph (codepoint : Nat) : Bool :=
  decide (0xE0A4 ≤ codepoint ∧ codepoint ≤ 0xE0D6)

/-- `isBoxOrBlockGlyph` (part_001, lines 28-30). -/
def isBoxOrBlockGlyph (codepoint : Nat) : Bool :=
  decide (0x2500 ≤ codepoint ∧ codepoint ≤ 0x259F)

/-- `excludeFromContrastRatioDemands` (part_001, lines 32-34). -/
def excludeFromContrastRatioDemands (codepoint : Nat) : Bool :=
  isPowerlineGlyph codepoint || isBoxOrBlockGlyph codepoint

/-- A contrast cache (spec section 4.4): ordered (bg, fg) rgba pair to
either an adjusted color or the explicit no-adjustment marker (`none`). -/
abbrev ContrastCacheState := List ((Nat × Nat) × Option Nat)

/-- `cache.getColor`: `none` means the pair is not cached; `some none`
is the cached no-adjustment marker. -/
def cacheGetColor (c : ContrastCacheState) (bg fg : Nat) :
    Option (Option Nat) :=
  (c.find? (fun e => e.1 == (bg, fg))).map (fun e => e.2)

/-- `cache.setColor`: the most recent entry for a pair wins. -/
def cacheSetColor (c : ContrastCacheState) (bg fg : Nat) (v : Option Nat) :
    ContrastCacheState :=
  ((bg, fg), v) :: c

/-- The renderer options consumed by the row factory. -/
structure RendererOptions where
  minimumContrastRatio : ℚ
  drawBoldTextInBrightColors : Bool
deriving DecidableEq

/-- The shared mutable caches: the width cache and the two contrast cache
instances (normal and half-contrast-for-dim). -/
structure Caches where
  widthCache : List ((String × Bool × Bool) × Int)
  contrastCache : ContrastCacheState
  halfContrastCache : ContrastCacheState
deriving DecidableEq

/-- `WidthCache.get` (spec section 4.3): memoized measured width of a text
at a bold/italic combination; the measurement itself is the deterministic
collaborator `measure`. -/
def widthCacheGet (measure : String → Bool → Bool → Int)
    (wc : List ((String × Bool × Bool) × Int)) (chars : String)
    (bold italic : Bool) : Int × List ((String × Bool × Bool) × Int) :=
  match wc.find? (fun e => e.1 == (chars, bold, italic)) with
  | some e => (e.2, wc)
  | none => (measure chars bold italic,
             ((chars, bold, italic), measure chars bold italic) :: wc)

/-- `_applyMinimumContrast` (part_000, lines 509-536), with
`_getContrastCache` (lines 538-543) selecting the dim or normal cache
instance. `ensure` is `color.ensureContrastRatio` of `common/Color` (not in
the source tree), modelled from the spec as the deterministic
color-adjustment collaborator. Returns the adjusted foreground set as the
element's color (`none` when no adjustment was applied) and the updated
caches. -/
def applyMinimumContrast (opts : RendererOptions)
    (ensure : Nat → Nat → ℚ → Option Nat) (caches : Caches) (bg fg : Nat)
    (cell : Cell) (bgOverride fgOverride : Option Nat) :
    Option Nat × Caches :=
  if opts.minimumContrastRatio = 1 ∨
      excludeFromContrastRatioDemands cell.code = true then
    (none, caches)
  else
    let cache := if cell.dim then caches.halfContrastCache
                 else caches.contrastCache
    let looked : Option (Option Nat) :=
      if bgOverride = none ∧ fgOverride = none then cacheGetColor cache bg fg
      else none
    match looked with
    | some adjusted => (adjusted, caches)
    | none =>
      let ratio := opts.minimumContrastRatio / (if cell.dim then 2 else 1)
      let adjusted := ensure (bgOverride.getD bg) (fgOverride.getD fg) ratio
      let cache1 := cacheSetColor cache (bgOverride.getD bg)
        (fgOverride.getD fg) adjusted
      let caches1 := if cell.dim then { caches with halfContrastCache := cache1 }
                     else { caches with contrastCache := cache1 }
      (adjusted, caches1)

/-- The cache-free result of minimum-contrast enforcement: what
`applyMinimumContrast` computes when its cache holds only canonical
entries. -/
def pureContrast (opts : RendererOptions)
    (ensure : Nat → Nat → ℚ → Option Nat) (bg fg : Nat) (cell : Cell)
    (bgOverride fgOverride : Option Nat) : Option Nat :=
  if opts.minimumContrastRatio = 1 ∨
      excludeFromContrastRatioDemands cell.code = true then
    none
  else
    ensure (bgOverride.getD bg) (fgOverride.getD fg)
      (opts.minimumContrastRatio / (if cell.dim then 2 else 1))

/-- The background paint of a background run: a palette class
(`xterm-bg-N`), an explicit RGB style, the inverted-default class, or
nothing (ambient terminal background). -/
inductive BgPaint
  | paletteClass (n : Nat)
  | rgbStyle (v : Nat)
  | invertedDefaultClass
  | defaultNone
deriving DecidableEq

/-- The CSS classes pushed onto a text run (`RowCss` plus the parameterized
underline, foreground and decoration classes). -/
inductive RowClass
  | bold
  | dim
  | italic
  | underlineStyled (n : Nat)
  | overline
  | strikethrough
  | cursor
  | cursorBlink
  | cursorBlock
  | cursorOutline
  | cursorBar
  | cursorUnderline
  | decorationTop
  | fgPalette (n : Nat)
  | fgInvertedDefault
deriving DecidableEq

/-- The `textDecorationColor` style of a text run: an explicit RGB triple
or the css of a resolved palette entry. -/
inductive UnderlineColorStyle
  | rgbStyle (v : Nat)
  | cssColor (rgba : Nat)
deriving DecidableEq

/-- The `color` style of a text run: set by minimum-contrast adjustment or
by an explicit true-color foreground. -/
inductive FgStyle
  | adjusted (rgba : Nat)
  | hexColor (v : Nat)
deriving DecidableEq

/-- An emitted background run descriptor: start column, span in cells,
paint. -/
structure BgRun where
  start : Nat
  span : Nat
  paint : BgPaint
deriving DecidableEq

/-- An emitted text run descriptor. -/
structure CharRun where
  start : Nat
  text : String
  classes : List RowClass
  colorStyle : Option FgStyle
  textDecorationColorStyle : Option UnderlineColorStyle
  textDecorationUnderline : Bool
  letterSpacing : Option Int
deriving DecidableEq

/-- The still-open background span (width finalized at close). -/
structure OpenBg where
  start : Nat
  paint : BgPaint
deriving DecidableEq

/-- The still-open text span (text finalized at close). -/
structure OpenChar where
  start : Nat
  classes : List RowClass
  colorStyle : Option FgStyle
  textDecorationColorStyle : Option UnderlineColorStyle
  textDecorationUnderline : Bool
  letterSpacing : Option Int
deriving DecidableEq

/-- The loop state of `createRow`: the mutable locals of part_000, lines
85-97, plus the emitted runs and the caller-owned joined-range queue and
(relocatable) cursor column. -/
structure RunState where
  cursorX : Nat
  joinedRanges : List (Nat × Nat)
  bgRuns : List BgRun
  charRuns : List CharRun
  openBg : Option OpenBg
  backgroundCellAmount : Nat
  openChar : Option OpenChar
  charCellAmount : Nat
  charText : String
  oldBg : Nat
  oldFg : Nat
  oldExt : Nat
  oldLinkHover : Bool
  oldSpacing : Int
  oldIsInSelection : Bool
  oldDecorations : List Decoration
deriving DecidableEq

/-- All row-render inputs other than the line, cursor column, joined ranges
and caches: options, theme, services and per-call parameters. -/
structure RowCfg where
  row : Nat
  isCursorRow : Bool
  cursorStyle : Option String
  cursorInactiveStyle : Option String
  cursorBlink : Bool
  cellWidth : Nat
  linkStart : Int
  linkEnd : Int
  selection : SelectionState
  colors : ThemeColors
  decorationsAt : Nat → Nat → List Decoration
  options : RendererOptions
  isFocused : Bool
  isCursorHidden : Bool
  isCursorInitialized : Bool
  defaultSpacing : Int
  measureWidth : String → Bool → Bool → Int
  ensureContrastRatio : Nat → Nat → ℚ → Option Nat

/-- The non-breaking space substituted for a plain space on underlined or
overlined cells. -/
def nbsp : String := " "

/-- The characters to render for a cell (part_000, lines 148-152): the
cell's characters or the whitespace sentinel, with the nbsp substitution
for underlined/overlined spaces. -/
def charsToRender (cell : Cell) : String :=
  let chars := if cell.chars = "" then " " else cell.chars
  if chars = " " ∧ (cell.underline = true ∨ cell.overline = true) then nbsp
  else chars

/-- `canMergeCharacters` (part_000, lines 169-180). -/
def canMergeCharacters (openChar : Option OpenChar) (charCellAmount : Nat)
    (isInSelection oldIsInSelection : Bool)
    (selectionForeground : Option Nat) (fg oldFg ext oldExt : Nat)
    (isLinkHover oldLinkHover : Bool) (sameDecos : Bool)
    (spacing oldSpacing : Int) (isCursorCell isJoined : Bool) : Bool :=
  openChar.isSome && charCellAmount != 0 &&
    ((isInSelection && oldIsInSelection && selectionForeground.isSome) ||
      fg == oldFg) &&
    ext == oldExt && isLinkHover == oldLinkHover && sameDecos &&
    spacing == oldSpacing && !isCursorCell && !isJoined

/-- `canMergeBackground` (part_000, lines 188-194). -/
def canMergeBackground (openBg : Option OpenBg)
    (backgroundCellAmount : Nat) (sameDecos : Bool)
    (isInSelection oldIsInSelection : Bool) (bg oldBg : Nat) : Bool :=
  openBg.isSome && backgroundCellAmount != 0 && sameDecos &&
    ((isInSelection && oldIsInSelection) ||
      (!isInSelection && !oldIsInSelection && bg == oldBg))

/-- The per-cell observations computed before the merge decision (part_000,
lines 103-155): the (possibly joined) cell, the selection / cursor /
link-hover / decoration state and the computed letter-spacing. -/
structure CellView where
  cell : Cell
  isJoined : Bool
  lastCharX : Nat
  joinedRest : List (Nat × Nat)
  width : Nat
  isInSelection : Bool
  isCursorCell : Bool
  isLinkHover : Bool
  decorations : List Decoration
  sameDecos : Bool
  chars : String
  spacing : Int
  widthCacheAfter : List ((String × Bool × Bool) × Int)

/-- Compute the per-cell observations at column `x`. -/
def cellView (cfg : RowCfg) (line : BufferLine) (x : Nat) (s : RunState)
    (caches : Caches) : CellView :=
  let cell0 := loadCell line x
  let joined :=
    match s.joinedRanges with
    | r :: rest =>
      if x = r.1 then
        (true, r.2 - 1,
          joinCell cell0 (line.translateToString r.1 r.2) (r.2 - r.1), rest)
      else (false, x, cell0, s.joinedRanges)
    | [] => (false, x, cell0, s.joinedRanges)
  let cell := joined.2.2.1
  let isInSelection := isCellInSelection cfg.selection x cfg.row
  let isCursorCell := cfg.isCursorRow && x == s.cursorX
  let hasHover := cfg.linkStart != -1 && cfg.linkEnd != -1
  let isLinkHover := hasHover && cfg.linkStart ≤ (x : Int) &&
    (x : Int) ≤ cfg.linkEnd
  let decorations := cfg.decorationsAt x cfg.row
  let chars := charsToRender cell
  let m := widthCacheGet cfg.measureWidth caches.widthCache chars
    cell.bold cell.italic
  { cell := cell
    isJoined := joined.1
    lastCharX := joined.2.1
    joinedRest := joined.2.2.2
    width := cell.width
    isInSelection := isInSelection
    isCursorCell := isCursorCell
    isLinkHover := isLinkHover
    decorations := decorations
    sameDecos := isSameDecorations decorations s.oldDecorations
    chars := chars
    spacing := (cell.width * cfg.cellWidth : Nat) - m.1
    widthCacheAfter := m.2 }

/-- Opening a new background span (part_000, lines 306-324): start column
and paint by background color mode. -/
def buildNewBg (x : Nat) (st : OvState) (isInverse : Bool) : OpenBg :=
  { start := x
    paint :=
      match st.bgColorMode with
      | ColorMode.cmP16 => BgPaint.paletteClass st.bg
      | ColorMode.cmP256 => BgPaint.paletteClass st.bg
      | ColorMode.cmRGB => BgPaint.rgbStyle st.bg
      | ColorMode.cmDefault =>
        if isInverse then BgPaint.invertedDefaultClass
        else BgPaint.defaultNone }

/-- The cursor CSS classes (part_000, lines 354-385), assuming the cursor
is to be rendered on this cell. -/
def cursorClasses (cfg : RowCfg) : List RowClass :=
  [RowClass.cursor] ++
    (if cfg.isFocused then
      (if cfg.cursorBlink then [RowClass.cursorBlink] else []) ++
        [if cfg.cursorStyle = some "bar" then RowClass.cursorBar
         else if cfg.cursorStyle = some "underline" then
           RowClass.cursorUnderline
         else RowClass.cursorBlock]
    else
      match cfg.cursorInactiveStyle with
      | some "outline" => [RowClass.cursorOutline]
      | some "block" => [RowClass.cursorBlock]
      | some "bar" => [RowClass.cursorBar]
      | some "underline" => [RowClass.cursorUnderline]
      | _ => [])

/-- The result of opening a new text span. -/
structure NewCharResult where
  openChar : OpenChar
  charText : String
  charCellAmount : Nat
  cursorX : Nat
  caches : Caches

/-- Opening a new text span (part_000, lines 335-491): cursor relocation
for joined units, class assembly, text computation with the invisible /
underline / overline substitutions, underline color, link-hover underline,
foreground resolution with minimum-contrast enforcement, letter-spacing
and the mergeable-cell counter. `isCursorCell` is the value computed at
line 139, before the relocation at lines 343-345. -/
def buildNewChar (cfg : RowCfg) (caches : Caches) (x lastCharX : Nat)
    (cursorX : Nat) (cell : Cell) (isJoined isCursorCell isLinkHover : Bool)
    (spacing : Int) (paint : CellPaint) : NewCharResult :=
  let cursorX1 :=
    if isJoined = true ∧ x ≤ cursorX ∧ cursorX ≤ lastCharX then x
    else cursorX
  let classes1 : List RowClass :=
    if paint.ov.isTop then [RowClass.decorationTop] else []
  let classes2 := classes1 ++
    (if !cfg.isCursorHidden && isCursorCell && cfg.isCursorInitialized then
      cursorClasses cfg
    else [])
  let classes3 := classes2 ++ (if cell.bold then [RowClass.bold] else [])
  let classes4 := classes3 ++ (if cell.italic then [RowClass.italic] else [])
  let classes5 := classes4 ++ (if cell.dim then [RowClass.dim] else [])
  let charText1 :=
    if cell.invisible then " "
    else if cell.chars = "" then " " else cell.chars
  let classes6 := classes5 ++
    (if cell.underline then [RowClass.underlineStyled cell.underlineStyle]
     else [])
  let charText2 :=
    if cell.underline = true ∧ charText1 = " " then nbsp else charText1
  let tdc : Option UnderlineColorStyle :=
    if cell.underline = true ∧ cell.underlineColorDefault = false then
      if cell.underlineColorRGB then
        some (UnderlineColorStyle.rgbStyle cell.underlineColor)
      else
        let f :=
          if cfg.options.drawBoldTextInBrightColors = true ∧
              cell.bold = true ∧ cell.underlineColor < 8 then
            cell.underlineColor + 8
          else cell.underlineColor
        some (UnderlineColorStyle.cssColor (cfg.colors.ansi f))
    else none
  let classes7 := classes6 ++
    (if cell.overline then [RowClass.overline] else [])
  let charText3 :=
    if cell.overline = true ∧ charText2 = " " then nbsp else charText2
  let classes8 := classes7 ++
    (if cell.strikethrough then [RowClass.strikethrough] else [])
  let fgRes : Option FgStyle × List RowClass × Caches :=
    match paint.ov.fgColorMode with
    | ColorMode.cmP16 =>
      let f :=
        if cell.bold = true ∧ paint.ov.fg < 8 ∧
            cfg.options.drawBoldTextInBrightColors = true then
          paint.ov.fg + 8
        else paint.ov.fg
      let a := applyMinimumContrast cfg.options cfg.ensureContrastRatio
        caches paint.resolvedBg (cfg.colors.ansi f) cell
        paint.ov.bgOverride none
      match a.1 with
      | some c => (some (FgStyle.adjusted c), [], a.2)
      | none => (none, [RowClass.fgPalette f], a.2)
    | ColorMode.cmP256 =>
      let f :=
        if cell.bold = true ∧ paint.ov.fg < 8 ∧
            cfg.options.drawBoldTextInBrightColors = true then
          paint.ov.fg + 8
        else paint.ov.fg
      let a := applyMinimumContrast cfg.options cfg.ensureContrastRatio
        caches paint.resolvedBg (cfg.colors.ansi f) cell
        paint.ov.bgOverride none
      match a.1 with
      | some c => (some (FgStyle.adjusted c), [], a.2)
      | none => (none, [RowClass.fgPalette f], a.2)
    | ColorMode.cmRGB =>
      let c := toColorRGBA ((paint.ov.fg >>> 16) &&& 0xFF)
        ((paint.ov.fg >>> 8) &&& 0xFF) (paint.ov.fg &&& 0xFF)
      let a := applyMinimumContrast cfg.options cfg.ensureContrastRatio
        caches paint.resolvedBg c cell paint.ov.bgOverride
        paint.ov.fgOverride
      match a.1 with
      | some adj => (some (FgStyle.adjusted adj), [], a.2)
      | none => (some (FgStyle.hexColor paint.ov.fg), [], a.2)
    | ColorMode.cmDefault =>
      let a := applyMinimumContrast cfg.options cfg.ensureContrastRatio
        caches paint.resolvedBg cfg.colors.foreground cell
        paint.ov.bgOverride paint.ov.fgOverride
      match a.1 with
      | some adj => (some (FgStyle.adjusted adj), [], a.2)
      | none =>
        (none,
          (if paint.isInverse then [RowClass.fgInvertedDefault] else []),
          a.2)
  { openChar :=
      { start := x
        classes := classes8 ++ fgRes.2.1
        colorStyle := fgRes.1
        textDecorationColorStyle := tdc
        textDecorationUnderline := isLinkHover
        letterSpacing :=
          if spacing ≠ cfg.defaultSpacing then some spacing else none }
    charText := charText3
    charCellAmount :=
      if isCursorCell = false ∧ isJoined = false then 1 else 0
    cursorX := cursorX1
    caches := fgRes.2.2 }

/-- Close the open background span into a finished run. -/
def closeBg (s : RunState) : List BgRun :=
  match s.openBg with
  | some ob => s.bgRuns ++
      [{ start := ob.start, span := s.backgroundCellAmount,
         paint := ob.paint }]
  | none => s.bgRuns

/-- Close the open text span into a finished run (its final text is the
accumulated `charText`). -/
def closeChar (s : RunState) : List CharRun :=
  match s.openChar with
  | some oc => s.charRuns ++
      [{ start := oc.start, text := s.charText, classes := oc.classes,
         colorStyle := oc.colorStyle,
         textDecorationColorStyle := oc.textDecorationColorStyle,
         textDecorationUnderline := oc.textDecorationUnderline,
         letterSpacing := oc.letterSpacing }]
  | none => s.charRuns

/-- Process one visited (nonzero-width) cell at column `x` (the loop body
of part_000, lines 103-494). Returns the new state, the new caches and the
next column (`lastCharX + 1` when a new text span consumed a joined
range). -/
def processVisitedCell (cfg : RowCfg) (line : BufferLine) (x : Nat)
    (s : RunState) (caches : Caches) : RunState × Caches × Nat :=
  let v := cellView cfg line x s caches
  let caches1 := { caches with widthCache := v.widthCacheAfter }
  let cmc := canMergeCharacters s.openChar s.charCellAmount v.isInSelection
    s.oldIsInSelection cfg.colors.selectionForeground v.cell.fg s.oldFg
    v.cell.ext s.oldExt v.isLinkHover s.oldLinkHover v.sameDecos v.spacing
    s.oldSpacing v.isCursorCell v.isJoined
  let cmb := canMergeBackground s.openBg s.backgroundCellAmount v.sameDecos
    v.isInSelection s.oldIsInSelection v.cell.bg s.oldBg
  let s1 := { s with joinedRanges := v.joinedRest }
  let s2 :=
    if cmb then
      { s1 with backgroundCellAmount := s1.backgroundCellAmount + v.width }
    else s1
  let s3 :=
    if cmc then
      { s2 with
          charText := s2.charText ++ v.chars
          charCellAmount := s2.charCellAmount + 1 }
    else s2
  if cmc && cmb then (s3, caches1, x + 1)
  else
    let s4 := { s3 with
        oldBg := v.cell.bg
        oldFg := v.cell.fg
        oldExt := v.cell.ext
        oldLinkHover := v.isLinkHover
        oldSpacing := v.spacing
        oldIsInSelection := v.isInSelection
        oldDecorations := v.decorations }
    let paint := resolveCellPaint cfg.colors cfg.isFocused v.decorations
      v.cell v.isInSelection
    let s5 :=
      if cmb then s4
      else { s4 with
          bgRuns := closeBg s4
          openBg := some (buildNewBg x paint.ov paint.isInverse)
          backgroundCellAmount := v.width }
    if cmc then (s5, caches1, x + 1)
    else
      let ncr := buildNewChar cfg caches1 x v.lastCharX s5.cursorX v.cell
        v.isJoined v.isCursorCell v.isLinkHover v.spacing paint
      ({ s5 with
          charRuns := closeChar s5
          openChar := some ncr.openChar
          charText := ncr.charText
          charCellAmount := ncr.charCellAmount
          cursorX := ncr.cursorX },
        ncr.caches, v.lastCharX + 1)

/-- The column loop of `createRow` (part_000, lines 102-496): zero-width
cells are skipped (owned by the preceding wide cell), visited cells are
processed, and the column jumps past a consumed joined range. The fuel is
an upper bound on the number of iterations; the column advances by at
least one each round. -/
def renderLoop (cfg : RowCfg) (line : BufferLine) (lineLength : Nat) :
    Nat → Nat → RunState → Caches → RunState × Caches
  | 0, _, s, caches => (s, caches)
  | fuel + 1, x, s, caches =>
    if x < lineLength then
      if (loadCell line x).width = 0 then
        renderLoop cfg line lineLength fuel (x + 1) s caches
      else
        let r := processVisitedCell cfg line x s caches
        renderLoop cfg line lineLength fuel r.2.2 r.1 r.2.1
    else (s, caches)

/-- The initial loop state (part_000, lines 85-97). -/
def initialRunState (cursorX : Nat) (joinedRanges : List (Nat × Nat)) :
    RunState :=
  { cursorX := cursorX, joinedRanges := joinedRanges, bgRuns := [],
    charRuns := [], openBg := none, backgroundCellAmount := 0,
    openChar := none, charCellAmount := 0, charText := "", oldBg := 0,
    oldFg := 0, oldExt := 0, oldLinkHover := false, oldSpacing := 0,
    oldIsInSelection := false, oldDecorations := [] }

/-- An emitted run descriptor: background runs are returned before text
runs (part_000, line 506). -/
inductive Run
  | bg (r : BgRun)
  | ch (r : CharRun)
deriving DecidableEq

/-- Flush the still-open spans at loop exit (part_000, lines 498-504). -/
def flushRuns (s : RunState) : List BgRun × List CharRun :=
  (closeBg s, closeChar s)

/-- `createRow` (part_000, lines 61-507): render one row into an ordered
run list (all background runs, then all text runs), threading the shared
caches. -/
def createRow (cfg : RowCfg) (line : BufferLine) (cursorX : Nat)
    (joinedRanges : List (Nat × Nat)) (caches : Caches) :
    List Run × Caches :=
  let lineLength := effectiveRowLength cfg.selection line cfg.row
    cfg.isCursorRow cursorX
  let r := renderLoop cfg line lineLength lineLength 0
    (initialRunState cursorX joinedRanges) caches
  let fl := flushRuns r.1
  (fl.1.map Run.bg ++ fl.2.map Run.ch, r.2)

/-- The start column of an emitted run. -/
def runStart : Run → Nat
  | Run.bg r => r.start
  | Run.ch r => r.start

/-- The total cell span of the emitted background runs of a run list. -/
def bgSpanTotal (runs : List Run) : Nat :=
  (runs.filterMap (fun r => match r with
    | Run.bg b => some b.span
    | Run.ch _ => none)).sum

/-- The cell-span bookkeeping of a loop state: closed background spans plus
the still-open span's counter. -/
def bgSpanSum (s : RunState) : Nat :=
  (s.bgRuns.map BgRun.span).sum + s.backgroundCellAmount

/-- Well-formed cell widths up to the effective length: widths are at most
2, a width-2 cell is followed by its zero-width continuation cell, and a
zero-width cell follows a width-2 cell. -/
def wellFormedWidths (line : BufferLine) (l : Nat) : Prop :=
  ∀ i < l, (loadCell line i).width ≤ 2 ∧
    ((loadCell line i).width = 2 → i + 1 < l ∧
      (loadCell line (i + 1)).width = 0) ∧
    ((loadCell line i).width = 0 → 0 < i ∧
      (loadCell line (i - 1)).width = 2)

/-- Well-formed joined ranges: nonempty, within the effective length, and
not splitting a wide-cell pair at the right edge. -/
def wellFormedRanges (line : BufferLine) (l : Nat)
    (ranges : List (Nat × Nat)) : Prop :=
  ∀ r ∈ ranges, r.1 < r.2 ∧ r.2 ≤ l ∧
    (r.2 < l → (loadCell line r.2).width ≠ 0)

/-- State invariant of the column loop used for the span accounting: an
absent open background span has a zero counter, and every recorded run
starts at a visited (nonzero-width) column. -/
def loopStateOk (line : BufferLine) (s : RunState) : Prop :=
  (s.openBg = none → s.backgroundCellAmount = 0) ∧
  (∀ r ∈ s.bgRuns, (loadCell line r.start).width ≠ 0) ∧
  (∀ r ∈ s.charRuns, (loadCell line r.start).width ≠ 0) ∧
  (∀ ob ∈ s.openBg, (loadCell line ob.start).width ≠ 0) ∧
  (∀ oc ∈ s.openChar, (loadCell line oc.start).width ≠ 0)

/-- Canonical cache contents: every width-cache entry is the measured
width of its key and every contrast-cache entry is the contrast adjustment
of its key pair at that instance's ratio. -/
def cachesGood (cfg : RowCfg) (caches : Caches) : Prop :=
  (∀ e ∈ caches.widthCache,
    e.2 = cfg.measureWidth e.1.1 e.1.2.1 e.1.2.2) ∧
  (∀ e ∈ caches.contrastCache,
    e.2 = cfg.ensureContrastRatio e.1.1 e.1.2
      (cfg.options.minimumContrastRatio / 1)) ∧
  (∀ e ∈ caches.halfContrastCache,
    e.2 = cfg.ensureContrastRatio e.1.1 e.1.2
      (cfg.options.minimumContrastRatio / 2))

/-- The foreground-override argument actually passed to
`_applyMinimumContrast` at a cell: the palette foreground branches pass
`undefined` (part_000, line 448), the true-color and default branches pass
the resolved foreground override (lines 458, 464). -/
def contrastFgOverrideArg (paint : CellPaint) : Option Nat :=
  match paint.ov.fgColorMode with
  | ColorMode.cmP16 => none
  | ColorMode.cmP256 => none
  | ColorMode.cmRGB => paint.ov.fgOverride
  | ColorMode.cmDefault => paint.ov.fgOverride

/-- Whether the contrast-cache lookup is skipped at a cell: the lookup is
performed only when both override arguments are absent (part_000,
line 517). -/
def contrastLookupSkippedAt (cfg : RowCfg) (cell : Cell) (x : Nat) : Bool :=
  let paint := resolveCellPaint cfg.colors cfg.isFocused
    (cfg.decorationsAt x cfg.row) cell
    (isCellInSelection cfg.selection x cfg.row)
  !(paint.ov.bgOverride.isNone && (contrastFgOverrideArg paint).isNone)

/-- Whether some decoration at a cell carries a color override. -/
def hasDecorationColorOverrideAt (cfg : RowCfg) (x : Nat) : Bool :=
  (cfg.decorationsAt x cfg.row).any (fun d =>
    d.backgroundColorRGB.isSome || d.foregroundColorRGB.isSome)

/-- The text-merge test of the loop body at column `x` (part_000, lines
169-180, with its inputs read off the loop state). -/
def stepCmc (cfg : RowCfg) (line : BufferLine) (x : Nat) (s : RunState)
    (caches : Caches) : Bool :=
  let v := cellView cfg line x s caches
  canMergeCharacters s.openChar s.charCellAmount v.isInSelection
    s.oldIsInSelection cfg.colors.selectionForeground v.cell.fg s.oldFg
    v.cell.ext s.oldExt v.isLinkHover s.oldLinkHover v.sameDecos v.spacing
    s.oldSpacing v.isCursorCell v.isJoined

/-- The background-merge test of the loop body at column `x` (part_000,
lines 188-194). -/
def stepCmb (cfg : RowCfg) (line : BufferLine) (x : Nat) (s : RunState)
    (caches : Caches) : Bool :=
  let v := cellView cfg line x s caches
  canMergeBackground s.openBg s.backgroundCellAmount v.sameDecos
    v.isInSelection s.oldIsInSelection v.cell.bg s.oldBg

/-! Concrete instances used by witnesses and counterexamples. -/

/-- A plain theme for concrete evaluations. -/
def wColors : ThemeColors :=
  { ansi := fun n => n + 1000, foreground := 500, background := 600,
    selectionBackgroundOpaque := 700,
    selectionInactiveBackgroundOpaque := 800,
    selectionForeground := none }

/-- Empty caches. -/
def wCaches : Caches :=
  { widthCache := [], contrastCache := [], halfContrastCache := [] }

/-- A plain row configuration: no selection, no decorations, no link hover,
contrast disabled. -/
def wCfg : RowCfg :=
  { row := 0, isCursorRow := false, cursorStyle := none,
    cursorInactiveStyle := none, cursorBlink := false, cellWidth := 1,
    linkStart := -1, linkEnd := -1,
    selection := { selectionStart := none, selectionEnd := none,
                   columnSelectMode := false },
    colors := wColors, decorationsAt := fun _ _ => [],
    options := { minimumContrastRatio := 1,
                 drawBoldTextInBrightColors := false },
    isFocused := true, isCursorHidden := false, isCursorInitialized := true,
    defaultSpacing := 0, measureWidth := fun _ _ _ => 1,
    ensureContrastRatio := fun _ _ _ => none }

/-- A plain letter cell. -/
def wCell : Cell := { nullCell with chars := "a", code := 97 }

/-- A dim letter cell. -/
def wDimCell : Cell := { wCell with dim := true }

/-- A three-letter line. -/
def wLine : BufferLine :=
  { cells := [wCell, wCell, wCell], noBgTrimmedLength := 3,
    translateToString := fun _ _ => "" }

/-- A wide (width-2) character cell. -/
def wWideCell : Cell := { nullCell with chars := "W", width := 2, code := 87 }

/-- The zero-width continuation cell of a wide character. -/
def wZeroCell : Cell := { nullCell with chars := "", width := 0 }

/-- A line holding a wide character, its continuation cell and a letter. -/
def wLineWide : BufferLine :=
  { cells := [wWideCell, wZeroCell, wCell], noBgTrimmedLength := 3,
    translateToString := fun _ _ => "" }

/-- A two-cell line whose columns 0-1 join to the string `ab`. -/
def wLineJoined : BufferLine :=
  { cells := [wCell, { wCell with chars := "b", code := 98 }],
    noBgTrimmedLength := 2,
    translateToString := fun a b => if a = 0 ∧ b = 2 then "ab" else "" }

/-- The cursor-row configuration used for the joined-range cursor input. -/
def wCfgCursor : RowCfg := { wCfg with isCursorRow := true }

/-- A top-layer decoration with a background override. -/
def wDecoTopBg : Decoration :=
  { id := 0, backgroundColorRGB := some 0x11223344,
    foregroundColorRGB := none, layerTop := true }

/-- A default-layer decoration with a background override. -/
def wDecoBg : Decoration :=
  { id := 1, backgroundColorRGB := some 0x55667788,
    foregroundColorRGB := none, layerTop := false }

/-- An empty override state. -/
def wOvInit : OvState :=
  { fg := 0, fgColorMode := ColorMode.cmDefault, bg := 0,
    bgColorMode := ColorMode.cmDefault, bgOverride := none,
    fgOverride := none, isTop := false }

/-- Options enabling contrast enforcement. -/
def wOptsContrast : RendererOptions :=
  { minimumContrastRatio := 2, drawBoldTextInBrightColors := false }

/-- A contrast collaborator returning a fixed adjusted color. -/
def wEnsure42 : Nat → Nat → ℚ → Option Nat := fun _ _ _ => some 42

/-- Caches holding a poisoned half-contrast entry for the raw pair. -/
def wCachesPoisoned : Caches :=
  { widthCache := [], contrastCache := [],
    halfContrastCache := [((600, 500), some 7)] }

/-- A bare open text span at column 0. -/
def wOpenChar : OpenChar :=
  { start := 0, classes := [], colorStyle := none,
    textDecorationColorStyle := none, textDecorationUnderline := false,
    letterSpacing := none }

/-- A bare open background span at column 0. -/
def wOpenBg : OpenBg := { start := 0, paint := BgPaint.defaultNone }

/-- A mid-row loop state: open text and background runs from column 0
with one accumulated cell, whose previous cell had foreground attribute 77
and background attribute 0. -/
def wStateMid : RunState :=
  { initialRunState 99 [] with
      openChar := some wOpenChar
      charCellAmount := 1
      charText := "a"
      openBg := some wOpenBg
      backgroundCellAmount := 1
      oldFg := 77
      oldBg := 0 }

/-! Helper lemmas. -/

theorem sameDecorationIds_eq_true_iff (a b : List Decoration) :
    sameDecorationIds a b = true ↔
      a.map Decoration.id = b.map Decoration.id := by
  induction a generalizing b with
  | nil => cases b <;> simp [sameDecorationIds]
  | cons d r ih =>
    cases b with
    | nil => simp [sameDecorationIds]
    | cons d2 r2 => simp [sameDecorationIds, ih]

theorem isSameDecorations_eq_true_iff (a b : List Decoration) :
    isSameDecorations a b = true ↔
      a.map Decoration.id = b.map Decoration.id := by
  cases a with
  | nil =>
    cases b with
    | nil => simp [isSameDecorations]
    | cons d2 r2 => simp [isSameDecorations]
  | cons d r =>
    cases b with
    | nil => simp [isSameDecorations]
    | cons d2 r2 =>
      simp only [isSameDecorations, List.length_cons]
      by_cases hl : r.length = r2.length
      · simp [hl, sameDecorationIds_eq_true_iff]
      · have h2 : ((r.length + 1 : Nat) != (r2.length + 1)) = true := by
          simp [bne]; omega
        simp [h2]
        intro h hh
        exact absurd (by simpa using congrArg List.length hh) hl

/-! Claim theorems. -/

/-- C3: the number of columns iterated by a row render — the effective row
length bounding the column loop of `createRow` — equals the line's trimmed
length ignoring trailing default-background cells, except that it equals
the full logical line length when the row lies within the active
selection's row range, and it is extended to `cursorX + 1` when the row is
the cursor row and the cursor column lies at or beyond that length. -/
theorem effectiveRowLength_eq_spec (sel : SelectionState)
    (line : BufferLine) (row : Nat) (isCursorRow : Bool) (cursorX : Nat) :
    effectiveRowLength sel line row isCursorRow cursorX =
      specEffectiveRowLength sel line row isCursorRow cursorX := by
  unfold effectiveRowLength specEffectiveRowLength
  cases isRowInSelection sel row <;> cases isCursorRow <;>
    simp <;> split_ifs <;> omega

/-- C8: the cell-level selection membership predicate equals the spec's
definition: in column-select mode a cell is inside iff its row is within
the selection's row range and its column lies in `[leftCol, rightCol)`
where `leftCol` is the lesser endpoint column; in normal (stream) mode a
cell is inside iff it is on a fully-enclosed middle row, or on a
single-row selection within `[startCol, endCol)`, or on the end row before
`endCol`, or on the start row at or after `startCol`. -/
theorem isCellInSelection_eq_spec (sel : SelectionState) (x y : Nat) :
    isCellInSelection sel x y = specCellInSelection sel x y := by
  unfold isCellInSelection specCellInSelection
  cases hs : sel.selectionStart with
  | none => rfl
  | some s =>
    cases he : sel.selectionEnd with
    | none => rfl
    | some e =>
      dsimp only
      by_cases hm : sel.columnSelectMode
      · rw [if_pos hm, if_pos hm]
        by_cases hle : s.1 ≤ e.1
        · rw [if_pos hle, decide_eq_decide]
          omega
        · rw [if_neg hle, decide_eq_decide]
          omega
      · rw [if_neg hm, if_neg hm]

theorem decoStep_isTop_mono (st : OvState) (d : Decoration)
    (h : st.isTop = true) : (decoStep st d).isTop = true := by
  unfold decoStep
  by_cases hl : d.layerTop = false
  · rw [if_pos ⟨hl, h⟩]
    exact h
  · have hl2 : d.layerTop = true := by
      cases h2 : d.layerTop
      · exact absurd h2 hl
      · rfl
    rw [if_neg (by simp [hl])]
    cases d.backgroundColorRGB <;> cases d.foregroundColorRGB <;>
      simp [hl2]

theorem applyDecorationOverrides_isTop_mono (st : OvState)
    (ds : List Decoration) (h : st.isTop = true) :
    (applyDecorationOverrides st ds).isTop = true := by
  induction ds generalizing st with
  | nil => exact h
  | cons d r ih =>
    simpa [applyDecorationOverrides, List.foldl] using
      ih (decoStep st d) (decoStep_isTop_mono st d h)

/-- C4 counterexample: with a top-layer decoration carrying a background
override followed by a default-layer decoration carrying a different
background override, the per-cell scan skips the second decoration
entirely, so its override is never applied — contradicting the claim that
every decoration's background/foreground RGB override is applied in
decoration order. -/
theorem applyDecorationOverrides_ne_spec :
    applyDecorationOverrides wOvInit [wDecoTopBg, wDecoBg] ≠
        specApplyDecorationOverrides wOvInit [wDecoTopBg, wDecoBg] ∧
      (applyDecorationOverrides wOvInit [wDecoTopBg, wDecoBg]).bgOverride =
        some 0x11223344 ∧
      (specApplyDecorationOverrides wOvInit
          [wDecoTopBg, wDecoBg]).bgOverride = some 0x55667788 := by
  decide

/-- C4 (amended): within the per-cell decoration scan, a non-top
decoration encountered while the top-layer flag is set is skipped entirely
(neither of its overrides is applied and the flag is untouched); otherwise
the step applies the decoration's background/foreground RGB overrides in
decoration order, forcing true-color mode, and sets the flag to whether
the decoration's layer is `top` — hence the flag, once true, is never
reset across the scan. Selection background/foreground overrides are
applied only when the flag is not already true, and applying them sets it
to true. -/
theorem decoScan_characterization (st : OvState) (d : Decoration)
    (ds : List Decoration) (colors : ThemeColors)
    (isFocused isInSelection : Bool) :
    (st.isTop = true → d.layerTop = false → decoStep st d = st) ∧
    (¬(st.isTop = true ∧ d.layerTop = false) →
      decoStep st d = specDecoStep st d) ∧
    (st.isTop = true → (applyDecorationOverrides st ds).isTop = true) ∧
    (st.isTop = true →
      applySelectionPaint colors isFocused st isInSelection = st) ∧
    (st.isTop = false → isInSelection = true →
      (applySelectionPaint colors isFocused st isInSelection).isTop =
        true ∧
      (applySelectionPaint colors isFocused st isInSelection).bgOverride =
        some (if isFocused then colors.selectionBackgroundOpaque
              else colors.selectionInactiveBackgroundOpaque) ∧
      (colors.selectionForeground = none →
        (applySelectionPaint colors isFocused st
            isInSelection).fgOverride = st.fgOverride) ∧
      (∀ c, colors.selectionForeground = some c →
        (applySelectionPaint colors isFocused st
            isInSelection).fgOverride = some c)) := by
  refine ⟨?_, ?_, ?_, ?_, ?_⟩
  · intro h1 h2
    unfold decoStep
    rw [if_pos ⟨h2, h1⟩]
  · intro h
    unfold decoStep specDecoStep
    rw [if_neg (by tauto)]
    have hTop : (st.isTop || d.layerTop) = d.layerTop := by
      cases h1 : st.isTop
      · rfl
      · cases h2 : d.layerTop
        · exact absurd ⟨h1, h2⟩ h
        · rfl
    cases d.backgroundColorRGB <;> cases d.foregroundColorRGB <;>
      simp only [hTop]
  · exact applyDecorationOverrides_isTop_mono st ds
  · intro h
    unfold applySelectionPaint
    rw [if_neg (by simp [h])]
  · intro h1 h2
    unfold applySelectionPaint
    rw [if_pos ⟨h1, h2⟩]
    cases hsf : colors.selectionForeground <;> simp

/-- Witness for the amended C4 theorem: a concrete skipped step. -/
theorem decoScan_characterization_witness :
    decoStep { wOvInit with isTop := true } wDecoBg =
      { wOvInit with isTop := true } :=
  (decoScan_characterization { wOvInit with isTop := true } wDecoBg []
      wColors true false).1 rfl rfl

theorem cacheGetColor_setColor_same (c : ContrastCacheState) (b f : Nat)
    (v : Option Nat) : cacheGetColor (cacheSetColor c b f v) b f = some v := by
  simp [cacheGetColor, cacheSetColor, List.find?]

/-- C5 counterexample: for a dim cell with no decorations (and no
selection), a background color override — the half-opacity dim variant —
is in effect, so the contrast-cache lookup is skipped even though no
decoration color override is in effect. The lookup-skip condition is
therefore not equivalent to the presence of a decoration color
override. -/
theorem contrastLookupSkipped_ne_decorationOverride :
    contrastLookupSkippedAt wCfg wDimCell 0 = true ∧
      hasDecorationColorOverrideAt wCfg 0 = false := by
  constructor
  · rfl
  · rfl

/-- C5 (amended): during minimum-contrast enforcement the contrast cache —
the dim or normal instance selected by the cell's dim flag, the other
instance and the width cache untouched — is consulted for the
(background, foreground) pair, and the lookup is skipped (the adjustment
always recomputed, regardless of the cache contents, though still stored)
exactly when a background or foreground color override is in effect,
whether it came from a decoration, from the selection, or was derived
from dim; the computed result, including the explicit
no-adjustment-possible marker, is stored keyed by the override-aware
pair. -/
theorem applyMinimumContrast_cache_characterization
    (opts : RendererOptions) (ensure : Nat → Nat → ℚ → Option Nat)
    (caches caches2 : Caches) (bg fg : Nat) (cell : Cell)
    (bgOverride fgOverride : Option Nat)
    (hmcr : opts.minimumContrastRatio ≠ 1)
    (hexc : excludeFromContrastRatioDemands cell.code = false) :
    ((bgOverride ≠ none ∨ fgOverride ≠ none) →
      (applyMinimumContrast opts ensure caches bg fg cell bgOverride
          fgOverride).1 =
        ensure (bgOverride.getD bg) (fgOverride.getD fg)
          (opts.minimumContrastRatio / (if cell.dim then 2 else 1)) ∧
      (applyMinimumContrast opts ensure caches2 bg fg cell bgOverride
          fgOverride).1 =
        (applyMinimumContrast opts ensure caches bg fg cell bgOverride
          fgOverride).1) ∧
    (∀ v, bgOverride = none → fgOverride = none →
      cacheGetColor
          (if cell.dim then caches.halfContrastCache
           else caches.contrastCache) bg fg = some v →
      applyMinimumContrast opts ensure caches bg fg cell none none =
        (v, caches)) ∧
    ((bgOverride ≠ none ∨ fgOverride ≠ none ∨
        cacheGetColor
          (if cell.dim then caches.halfContrastCache
           else caches.contrastCache) bg fg = none) →
      cacheGetColor
          (if cell.dim then
            (applyMinimumContrast opts ensure caches bg fg cell bgOverride
              fgOverride).2.halfContrastCache
           else
            (applyMinimumContrast opts ensure caches bg fg cell bgOverride
              fgOverride).2.contrastCache)
          (bgOverride.getD bg) (fgOverride.getD fg) =
        some (ensure (bgOverride.getD bg) (fgOverride.getD fg)
          (opts.minimumContrastRatio / (if cell.dim then 2 else 1)))) ∧
    ((if cell.dim then
        (applyMinimumContrast opts ensure caches bg fg cell bgOverride
          fgOverride).2.contrastCache = caches.contrastCache
      else
        (applyMinimumContrast opts ensure caches bg fg cell bgOverride
          fgOverride).2.halfContrastCache = caches.halfContrastCache) ∧
      (applyMinimumContrast opts ensure caches bg fg cell bgOverride
        fgOverride).2.widthCache = caches.widthCache) := by
  have hcond : ¬(opts.minimumContrastRatio = 1 ∨
      excludeFromContrastRatioDemands cell.code = true) := by
    simp [hmcr, hexc]
  by_cases hov : bgOverride = none ∧ fgOverride = none
  · obtain ⟨hb, hf⟩ := hov
    subst hb; subst hf
    refine ⟨by simp, ?_, ?_, ?_⟩
    · intro v _ _ hget
      unfold applyMinimumContrast
      rw [if_neg hcond]
      cases hdim : cell.dim <;> simp [hdim] at hget ⊢ <;> rw [hget]
    · intro hc
      rcases hc with hc | hc | hc
      · exact absurd rfl hc
      · exact absurd rfl hc
      · unfold applyMinimumContrast
        rw [if_neg hcond]
        cases hdim : cell.dim <;> simp [hdim] at hc ⊢ <;> rw [hc] <;>
          simp [cacheGetColor_setColor_same]
    · unfold applyMinimumContrast
      rw [if_neg hcond]
      cases hdim : cell.dim <;>
        simp only [hdim, if_true, if_false, Bool.false_eq_true] <;>
        cases hget : cacheGetColor
          (if cell.dim = true then caches.halfContrastCache
           else caches.contrastCache) bg fg <;>
        simp_all
  · have hov2 : ¬(bgOverride = none ∧ fgOverride = none) := hov
    have hstep : ∀ c : Caches,
        applyMinimumContrast opts ensure c bg fg cell bgOverride
          fgOverride =
        (ensure (bgOverride.getD bg) (fgOverride.getD fg)
          (opts.minimumContrastRatio / (if cell.dim then 2 else 1)),
         if cell.dim then { c with halfContrastCache := cacheSetColor c.halfContrastCache (bgOverride.getD bg) (fgOverride.getD fg) (ensure (bgOverride.getD bg) (fgOverride.getD fg) (opts.minimumContrastRatio / (if cell.dim then 2 else 1))) } else { c with contrastCache := cacheSetColor c.contrastCache (bgOverride.getD bg) (fgOverride.getD fg) (ensure (bgOverride.getD bg) (fgOverride.getD fg) (opts.minimumContrastRatio / (if cell.dim then 2 else 1))) }) := by
      intro c
      unfold applyMinimumContrast
      rw [if_neg hcond]
      simp only [if_neg hov2]
      cases hdim : cell.dim <;> simp [hdim]
    refine ⟨fun _ => ⟨by rw [hstep], by rw [hstep, hstep]⟩, ?_, ?_, ?_⟩
    · intro v hb hf
      exact absurd ⟨hb, hf⟩ hov
    · intro _
      rw [hstep]
      cases hdim : cell.dim <;> simp [hdim, cacheGetColor_setColor_same]
    · rw [hstep]
      cases hdim : cell.dim <;> simp [hdim]

/-- Witness for the amended C5 theorem: with a dim-derived background
override in effect, the adjustment is recomputed from the override-aware
pair even though the raw pair is present in the (poisoned) half-contrast
cache. -/
theorem applyMinimumContrast_cache_characterization_witness :
    (applyMinimumContrast wOptsContrast wEnsure42 wCachesPoisoned 600 500
        wDimCell (some (multiplyOpacityHalf 600)) none).1 =
      wEnsure42 ((some (multiplyOpacityHalf 600)).getD 600)
        ((none : Option Nat).getD 500)
        (wOptsContrast.minimumContrastRatio /
          (if wDimCell.dim then 2 else 1)) :=
  ((applyMinimumContrast_cache_characterization wOptsContrast wEnsure42
      wCachesPoisoned wCaches 600 500 wDimCell
      (some (multiplyOpacityHalf 600)) none (by decide) (by decide)).1
    (Or.inl (by simp))).1

theorem cellView_sameDecos (cfg : RowCfg) (line : BufferLine) (x : Nat)
    (s : RunState) (caches : Caches) :
    (cellView cfg line x s caches).sameDecos =
      isSameDecorations (cellView cfg line x s caches).decorations
        s.oldDecorations := by
  rfl

theorem canMergeCharacters_eq_true_iff (oc : Option OpenChar) (amt : Nat)
    (sel oldSel : Bool) (selFg : Option Nat) (fg oldFg ext oldExt : Nat)
    (lh oldLh : Bool) (sd : Bool) (sp oldSp : Int) (cc j : Bool) :
    canMergeCharacters oc amt sel oldSel selFg fg oldFg ext oldExt lh oldLh
        sd sp oldSp cc j = true ↔
      (oc.isSome = true ∧ amt ≠ 0 ∧
        ((sel = true ∧ oldSel = true ∧ selFg.isSome = true) ∨ fg = oldFg) ∧
        ext = oldExt ∧ lh = oldLh ∧ sd = true ∧ sp = oldSp ∧
        cc = false ∧ j = false) := by
  unfold canMergeCharacters
  cases cc <;> cases j <;> cases sel <;> cases oldSel <;> cases lh <;>
    cases oldLh <;> cases sd <;> (simp; try tauto)

theorem canMergeBackground_eq_true_iff (ob : Option OpenBg) (amt : Nat)
    (sd : Bool) (sel oldSel : Bool) (bg oldBg : Nat) :
    canMergeBackground ob amt sd sel oldSel bg oldBg = true ↔
      (ob.isSome = true ∧ amt ≠ 0 ∧ sd = true ∧
        ((sel = true ∧ oldSel = true) ∨
          (sel = false ∧ oldSel = false ∧ bg = oldBg))) := by
  unfold canMergeBackground
  cases sel <;> cases oldSel <;> cases sd <;> (simp; try tauto)

theorem processVisitedCell_merge_both (cfg : RowCfg) (line : BufferLine)
    (x : Nat) (s : RunState) (caches : Caches)
    (hc : stepCmc cfg line x s caches = true)
    (hb : stepCmb cfg line x s caches = true) :
    processVisitedCell cfg line x s caches =
      (let v := cellView cfg line x s caches
       ({ s with
          joinedRanges := v.joinedRest
          backgroundCellAmount := s.backgroundCellAmount + v.width
          charText := s.charText ++ v.chars
          charCellAmount := s.charCellAmount + 1 },
        { caches with widthCache := v.widthCacheAfter }, x + 1)) := by
  unfold stepCmc at hc
  unfold stepCmb at hb
  unfold processVisitedCell
  simp only [hc, hb, Bool.and_self, if_true]

theorem processVisitedCell_merge_char_only (cfg : RowCfg)
    (line : BufferLine) (x : Nat) (s : RunState) (caches : Caches)
    (hc : stepCmc cfg line x s caches = true)
    (hb : stepCmb cfg line x s caches = false) :
    processVisitedCell cfg line x s caches =
      (let v := cellView cfg line x s caches
       let paint := resolveCellPaint cfg.colors cfg.isFocused v.decorations
         v.cell v.isInSelection
       ({ s with
          joinedRanges := v.joinedRest
          charText := s.charText ++ v.chars
          charCellAmount := s.charCellAmount + 1
          oldBg := v.cell.bg
          oldFg := v.cell.fg
          oldExt := v.cell.ext
          oldLinkHover := v.isLinkHover
          oldSpacing := v.spacing
          oldIsInSelection := v.isInSelection
          oldDecorations := v.decorations
          bgRuns := closeBg s
          openBg := some (buildNewBg x paint.ov paint.isInverse)
          backgroundCellAmount := v.width },
        { caches with widthCache := v.widthCacheAfter }, x + 1)) := by
  unfold stepCmc at hc
  unfold stepCmb at hb
  unfold processVisitedCell
  simp only [hc, hb, Bool.and_false, Bool.false_eq_true, if_false, if_true]
  rfl

theorem processVisitedCell_merge_bg_only (cfg : RowCfg)
    (line : BufferLine) (x : Nat) (s : RunState) (caches : Caches)
    (hc : stepCmc cfg line x s caches = false)
    (hb : stepCmb cfg line x s caches = true) :
    processVisitedCell cfg line x s caches =
      (let v := cellView cfg line x s caches
       let paint := resolveCellPaint cfg.colors cfg.isFocused v.decorations
         v.cell v.isInSelection
       let ncr := buildNewChar cfg
         { caches with widthCache := v.widthCacheAfter } x v.lastCharX
         s.cursorX v.cell v.isJoined v.isCursorCell v.isLinkHover v.spacing
         paint
       ({ s with
          joinedRanges := v.joinedRest
          backgroundCellAmount := s.backgroundCellAmount + v.width
          oldBg := v.cell.bg
          oldFg := v.cell.fg
          oldExt := v.cell.ext
          oldLinkHover := v.isLinkHover
          oldSpacing := v.spacing
          oldIsInSelection := v.isInSelection
          oldDecorations := v.decorations
          charRuns := closeChar s
          openChar := some ncr.openChar
          charText := ncr.charText
          charCellAmount := ncr.charCellAmount
          cursorX := ncr.cursorX },
        ncr.caches, v.lastCharX + 1)) := by
  unfold stepCmc at hc
  unfold stepCmb at hb
  unfold processVisitedCell
  simp only [hc, hb, Bool.false_and, Bool.false_eq_true, if_false, if_true]
  rfl

theorem processVisitedCell_no_merge (cfg : RowCfg) (line : BufferLine)
    (x : Nat) (s : RunState) (caches : Caches)
    (hc : stepCmc cfg line x s caches = false)
    (hb : stepCmb cfg line x s caches = false) :
    processVisitedCell cfg line x s caches =
      (let v := cellView cfg line x s caches
       let paint := resolveCellPaint cfg.colors cfg.isFocused v.decorations
         v.cell v.isInSelection
       let ncr := buildNewChar cfg
         { caches with widthCache := v.widthCacheAfter } x v.lastCharX
         s.cursorX v.cell v.isJoined v.isCursorCell v.isLinkHover v.spacing
         paint
       ({ s with
          joinedRanges := v.joinedRest
          oldBg := v.cell.bg
          oldFg := v.cell.fg
          oldExt := v.cell.ext
          oldLinkHover := v.isLinkHover
          oldSpacing := v.spacing
          oldIsInSelection := v.isInSelection
          oldDecorations := v.decorations
          bgRuns := closeBg s
          openBg := some (buildNewBg x paint.ov paint.isInverse)
          backgroundCellAmount := v.width
          charRuns := closeChar s
          openChar := some ncr.openChar
          charText := ncr.charText
          charCellAmount := ncr.charCellAmount
          cursorX := ncr.cursorX },
        ncr.caches, v.lastCharX + 1)) := by
  unfold stepCmc at hc
  unfold stepCmb at hb
  unfold processVisitedCell
  simp only [hc, hb, Bool.false_and, Bool.false_eq_true, if_false, if_true]
  rfl

theorem stepCmc_eq_true_iff (cfg : RowCfg) (line : BufferLine) (x : Nat)
    (s : RunState) (caches : Caches) :
    stepCmc cfg line x s caches = true ↔
      (s.openChar.isSome = true ∧ s.charCellAmount ≠ 0 ∧
        (((cellView cfg line x s caches).isInSelection = true ∧
            s.oldIsInSelection = true ∧
            cfg.colors.selectionForeground.isSome = true) ∨
          (cellView cfg line x s caches).cell.fg = s.oldFg) ∧
        (cellView cfg line x s caches).cell.ext = s.oldExt ∧
        (cellView cfg line x s caches).isLinkHover = s.oldLinkHover ∧
        (cellView cfg line x s caches).decorations.map Decoration.id =
          s.oldDecorations.map Decoration.id ∧
        (cellView cfg line x s caches).spacing = s.oldSpacing ∧
        (cellView cfg line x s caches).isCursorCell = false ∧
        (cellView cfg line x s caches).isJoined = false) := by
  unfold stepCmc
  rw [canMergeCharacters_eq_true_iff, cellView_sameDecos,
    isSameDecorations_eq_true_iff]

theorem stepCmb_eq_true_iff (cfg : RowCfg) (line : BufferLine) (x : Nat)
    (s : RunState) (caches : Caches) :
    stepCmb cfg line x s caches = true ↔
      (s.openBg.isSome = true ∧ s.backgroundCellAmount ≠ 0 ∧
        (cellView cfg line x s caches).decorations.map Decoration.id =
          s.oldDecorations.map Decoration.id ∧
        (((cellView cfg line x s caches).isInSelection = true ∧
            s.oldIsInSelection = true) ∨
          ((cellView cfg line x s caches).isInSelection = false ∧
            s.oldIsInSelection = false ∧
            (cellView cfg line x s caches).cell.bg = s.oldBg))) := by
  unfold stepCmb
  rw [canMergeBackground_eq_true_iff, cellView_sameDecos,
    isSameDecorations_eq_true_iff]

theorem buildNewChar_start (cfg : RowCfg) (caches : Caches)
    (x lastCharX cursorX : Nat) (cell : Cell) (j cc lh : Bool)
    (sp : Int) (paint : CellPaint) :
    (buildNewChar cfg caches x lastCharX cursorX cell j cc lh sp
      paint).openChar.start = x := rfl

theorem buildNewChar_charCellAmount (cfg : RowCfg) (caches : Caches)
    (x lastCharX cursorX : Nat) (cell : Cell) (j cc lh : Bool)
    (sp : Int) (paint : CellPaint) :
    (buildNewChar cfg caches x lastCharX cursorX cell j cc lh sp
      paint).charCellAmount = if cc = false ∧ j = false then 1 else 0 := rfl

theorem buildNewChar_cursorX (cfg : RowCfg) (caches : Caches)
    (x lastCharX cursorX : Nat) (cell : Cell) (j cc lh : Bool)
    (sp : Int) (paint : CellPaint) :
    (buildNewChar cfg caches x lastCharX cursorX cell j cc lh sp
      paint).cursorX =
      if j = true ∧ x ≤ cursorX ∧ cursorX ≤ lastCharX then x
      else cursorX := rfl

/-- C1: for every cell visited during a row render, the current open text
run is extended by that cell iff all of these hold: a text run is
currently open and still accepting text (its mergeable-cell counter is
nonzero — a run created for a cursor cell or a joined unit has its content
finalized at creation and is no longer open to merging, per the code
comment at part_000 lines 157-168); (the cell and the previous run cell
are both in selection and a selection foreground color is configured) or
the raw foreground attribute equals the previous run cell's; the
extended-attribute fingerprint is unchanged; the link-hover state is
unchanged; the decoration list is unchanged (same length, pairwise
reference-identical, order-sensitive); the computed letter-spacing is
unchanged; the cell is not the cursor cell; and the cell is not a joined
unit. -/
theorem createRow_text_merge_iff (cfg : RowCfg) (line : BufferLine)
    (x : Nat) (s : RunState) (caches : Caches) :
    ((processVisitedCell cfg line x s caches).1.charRuns.length =
        s.charRuns.length ∧
      (processVisitedCell cfg line x s caches).1.openChar = s.openChar ∧
      (processVisitedCell cfg line x s caches).1.charCellAmount =
        s.charCellAmount + 1) ↔
      (s.openChar.isSome = true ∧ s.charCellAmount ≠ 0 ∧
        (((cellView cfg line x s caches).isInSelection = true ∧
            s.oldIsInSelection = true ∧
            cfg.colors.selectionForeground.isSome = true) ∨
          (cellView cfg line x s caches).cell.fg = s.oldFg) ∧
        (cellView cfg line x s caches).cell.ext = s.oldExt ∧
        (cellView cfg line x s caches).isLinkHover = s.oldLinkHover ∧
        (cellView cfg line x s caches).decorations.map Decoration.id =
          s.oldDecorations.map Decoration.id ∧
        (cellView cfg line x s caches).spacing = s.oldSpacing ∧
        (cellView cfg line x s caches).isCursorCell = false ∧
        (cellView cfg line x s caches).isJoined = false) := by
  rw [← stepCmc_eq_true_iff]
  rcases Bool.eq_false_or_eq_true (stepCmc cfg line x s caches) with hc | hc
  case inl =>
    refine iff_of_true ?_ hc
    rcases Bool.eq_false_or_eq_true (stepCmb cfg line x s caches) with
      hb | hb
    · rw [processVisitedCell_merge_both cfg line x s caches hc hb]
      exact ⟨rfl, rfl, rfl⟩
    · rw [processVisitedCell_merge_char_only cfg line x s caches hc hb]
      exact ⟨rfl, rfl, rfl⟩
  case inr =>
    rw [hc]
    simp only [Bool.false_eq_true, iff_false]
    intro hl
    rcases Bool.eq_false_or_eq_true (stepCmb cfg line x s caches) with
      hb | hb
    · rw [processVisitedCell_merge_bg_only cfg line x s caches hc hb] at hl
      cases hoc : s.openChar with
      | none =>
        have h2 := hl.2.1
        simp only at h2
        rw [hoc] at h2
        exact Option.noConfusion h2
      | some oc =>
        have h1 := hl.1
        simp only [closeChar, hoc] at h1
        simp at h1
    · rw [processVisitedCell_no_merge cfg line x s caches hc hb] at hl
      cases hoc : s.openChar with
      | none =>
        have h2 := hl.2.1
        simp only at h2
        rw [hoc] at h2
        exact Option.noConfusion h2
      | some oc =>
        have h1 := hl.1
        simp only [closeChar, hoc] at h1
        simp at h1

/-- C2: for every cell visited during a row render, the current open
background run is extended by that cell iff a background run is open
(with a nonzero cell counter), the decoration list is unchanged, and
either both this cell and the previous cell are in selection, or neither
is and the raw background attribute is unchanged. Consequently, changing
only the foreground attribute at a column forces a text-run boundary
there — the open text run closes and a new text run starts at that
column — while the open background run continues across it when the
background attribute is unchanged. -/
theorem createRow_bg_merge_iff (cfg : RowCfg) (line : BufferLine)
    (x : Nat) (s : RunState) (caches : Caches) :
    (((processVisitedCell cfg line x s caches).1.bgRuns.length =
        s.bgRuns.length ∧
      (processVisitedCell cfg line x s caches).1.openBg = s.openBg ∧
      (processVisitedCell cfg line x s caches).1.backgroundCellAmount =
        s.backgroundCellAmount + (cellView cfg line x s caches).width) ↔
      (s.openBg.isSome = true ∧ s.backgroundCellAmount ≠ 0 ∧
        (cellView cfg line x s caches).decorations.map Decoration.id =
          s.oldDecorations.map Decoration.id ∧
        (((cellView cfg line x s caches).isInSelection = true ∧
            s.oldIsInSelection = true) ∨
          ((cellView cfg line x s caches).isInSelection = false ∧
            s.oldIsInSelection = false ∧
            (cellView cfg line x s caches).cell.bg = s.oldBg)))) ∧
    (s.openChar.isSome = true → s.charCellAmount ≠ 0 →
      s.openBg.isSome = true → s.backgroundCellAmount ≠ 0 →
      (cellView cfg line x s caches).cell.fg ≠ s.oldFg →
      (cellView cfg line x s caches).isInSelection = false →
      s.oldIsInSelection = false →
      (cellView cfg line x s caches).cell.bg = s.oldBg →
      (cellView cfg line x s caches).decorations.map Decoration.id =
        s.oldDecorations.map Decoration.id →
      (processVisitedCell cfg line x s caches).1.charRuns.length =
        s.charRuns.length + 1 ∧
      (∃ oc, (processVisitedCell cfg line x s caches).1.openChar =
        some oc ∧ oc.start = x) ∧
      (processVisitedCell cfg line x s caches).1.bgRuns.length =
        s.bgRuns.length ∧
      (processVisitedCell cfg line x s caches).1.openBg = s.openBg ∧
      (processVisitedCell cfg line x s caches).1.backgroundCellAmount =
        s.backgroundCellAmount + (cellView cfg line x s caches).width) := by
  constructor
  · rw [← stepCmb_eq_true_iff]
    rcases Bool.eq_false_or_eq_true (stepCmb cfg line x s caches) with
      hb | hb
    case inl =>
      refine iff_of_true ?_ hb
      rcases Bool.eq_false_or_eq_true (stepCmc cfg line x s caches) with
        hc | hc
      · rw [processVisitedCell_merge_both cfg line x s caches hc hb]
        exact ⟨rfl, rfl, rfl⟩
      · rw [processVisitedCell_merge_bg_only cfg line x s caches hc hb]
        exact ⟨rfl, rfl, rfl⟩
    case inr =>
      rw [hb]
      simp only [Bool.false_eq_true, iff_false]
      intro hl
      rcases Bool.eq_false_or_eq_true (stepCmc cfg line x s caches) with
        hc | hc
      · rw [processVisitedCell_merge_char_only cfg line x s caches hc hb]
          at hl
        cases hob : s.openBg with
        | none =>
          have h2 := hl.2.1
          simp only at h2
          rw [hob] at h2
          exact Option.noConfusion h2
        | some ob =>
          have h1 := hl.1
          simp only [closeBg, hob] at h1
          simp at h1
      · rw [processVisitedCell_no_merge cfg line x s caches hc hb] at hl
        cases hob : s.openBg with
        | none =>
          have h2 := hl.2.1
          simp only at h2
          rw [hob] at h2
          exact Option.noConfusion h2
        | some ob =>
          have h1 := hl.1
          simp only [closeBg, hob] at h1
          simp at h1
  · intro h1 h2 h3 h4 h5 h6 h7 h8 h9
    have hc : stepCmc cfg line x s caches = false := by
      rcases Bool.eq_false_or_eq_true (stepCmc cfg line x s caches) with
        hc | hc
      · have hh := (stepCmc_eq_true_iff cfg line x s caches).mp hc
        rcases hh.2.2.1 with hsel | hfg
        · rw [hsel.1] at h6
          exact absurd h6 (by simp)
        · exact absurd hfg h5
      · exact hc
    have hb : stepCmb cfg line x s caches = true := by
      rw [stepCmb_eq_true_iff]
      exact ⟨h3, h4, h9, Or.inr ⟨h6, h7, h8⟩⟩
    rw [processVisitedCell_merge_bg_only cfg line x s caches hc hb]
    obtain ⟨oc, hoc⟩ := Option.isSome_iff_exists.mp h1
    refine ⟨?_, ⟨_, rfl, buildNewChar_start _ _ _ _ _ _ _ _ _ _ _⟩,
      rfl, rfl, rfl⟩
    simp only [closeChar, hoc]
    simp

/-- Witness for C2: a concrete visited cell whose foreground attribute
differs from the previous run cell's while its background attribute
matches — the text run closes with a new one starting at the column, and
the background run extends. -/
theorem createRow_bg_merge_iff_witness :
    (processVisitedCell wCfg wLine 1 wStateMid wCaches).1.charRuns.length =
      wStateMid.charRuns.length + 1 ∧
    (∃ oc, (processVisitedCell wCfg wLine 1 wStateMid
      wCaches).1.openChar = some oc ∧ oc.start = 1) ∧
    (processVisitedCell wCfg wLine 1 wStateMid wCaches).1.bgRuns.length =
      wStateMid.bgRuns.length ∧
    (processVisitedCell wCfg wLine 1 wStateMid wCaches).1.openBg =
      wStateMid.openBg ∧
    (processVisitedCell wCfg wLine 1 wStateMid
      wCaches).1.backgroundCellAmount =
      wStateMid.backgroundCellAmount +
        (cellView wCfg wLine 1 wStateMid wCaches).width :=
  (createRow_bg_merge_iff wCfg wLine 1 wStateMid wCaches).2 (by decide)
    (by decide) (by decide) (by decide) (by decide) (by decide)
    (by decide) (by decide) (by decide)

/-- C10: a text run opened for a cursor cell or a joined unit is never
extended: its mergeable-cell counter is left at zero when it is created,
and text-merge eligibility requires a nonzero counter, so the cell
immediately following always starts a new text run (the open run closes
and a fresh run starts at that column), even when all its visual
attributes match the previous run. -/
theorem createRow_cursor_joined_counter (cfg : RowCfg) (line : BufferLine)
    (x : Nat) (s : RunState) (caches : Caches) :
    (((cellView cfg line x s caches).isCursorCell = true ∨
        (cellView cfg line x s caches).isJoined = true) →
      (processVisitedCell cfg line x s caches).1.charCellAmount = 0) ∧
    (s.charCellAmount = 0 →
      (∃ oc, (processVisitedCell cfg line x s caches).1.openChar =
        some oc ∧ oc.start = x) ∧
      (processVisitedCell cfg line x s caches).1.charRuns.length =
        s.charRuns.length + (if s.openChar.isSome then 1 else 0) ∧
      ¬((processVisitedCell cfg line x s caches).1.charRuns.length =
          s.charRuns.length ∧
        (processVisitedCell cfg line x s caches).1.openChar = s.openChar ∧
        (processVisitedCell cfg line x s caches).1.charCellAmount =
          s.charCellAmount + 1)) := by
  constructor
  · intro h
    have hc : stepCmc cfg line x s caches = false := by
      rcases Bool.eq_false_or_eq_true (stepCmc cfg line x s caches) with
        hc | hc
      · have hh := (stepCmc_eq_true_iff cfg line x s caches).mp hc
        rcases h with h | h
        · rw [h] at hh
          simp at hh
        · rw [h] at hh
          simp at hh
      · exact hc
    have hamt : ¬((cellView cfg line x s caches).isCursorCell = false ∧
        (cellView cfg line x s caches).isJoined = false) := by
      rcases h with h | h <;> rw [h] <;> simp
    rcases Bool.eq_false_or_eq_true (stepCmb cfg line x s caches) with
      hb | hb
    · rw [processVisitedCell_merge_bg_only cfg line x s caches hc hb]
      simp only [buildNewChar_charCellAmount]
      exact if_neg hamt
    · rw [processVisitedCell_no_merge cfg line x s caches hc hb]
      simp only [buildNewChar_charCellAmount]
      exact if_neg hamt
  · intro hz
    have hc : stepCmc cfg line x s caches = false := by
      rcases Bool.eq_false_or_eq_true (stepCmc cfg line x s caches) with
        hc | hc
      · have hh := (stepCmc_eq_true_iff cfg line x s caches).mp hc
        exact absurd hz hh.2.1
      · exact hc
    have main : ∀ st : RunState × Caches × Nat,
        st = processVisitedCell cfg line x s caches →
        st.1.openChar = some (buildNewChar cfg
          { caches with widthCache :=
              (cellView cfg line x s caches).widthCacheAfter } x
          (cellView cfg line x s caches).lastCharX s.cursorX
          (cellView cfg line x s caches).cell
          (cellView cfg line x s caches).isJoined
          (cellView cfg line x s caches).isCursorCell
          (cellView cfg line x s caches).isLinkHover
          (cellView cfg line x s caches).spacing
          (resolveCellPaint cfg.colors cfg.isFocused
            (cellView cfg line x s caches).decorations
            (cellView cfg line x s caches).cell
            (cellView cfg line x s caches).isInSelection)).openChar ∧
        st.1.charRuns = closeChar s ∧
        st.1.charCellAmount = (buildNewChar cfg
          { caches with widthCache :=
              (cellView cfg line x s caches).widthCacheAfter } x
          (cellView cfg line x s caches).lastCharX s.cursorX
          (cellView cfg line x s caches).cell
          (cellView cfg line x s caches).isJoined
          (cellView cfg line x s caches).isCursorCell
          (cellView cfg line x s caches).isLinkHover
          (cellView cfg line x s caches).spacing
          (resolveCellPaint cfg.colors cfg.isFocused
            (cellView cfg line x s caches).decorations
            (cellView cfg line x s caches).cell
            (cellView cfg line x s caches).isInSelection)).charCellAmount := by
      intro st hst
      rcases Bool.eq_false_or_eq_true (stepCmb cfg line x s caches) with
        hb | hb
      · rw [processVisitedCell_merge_bg_only cfg line x s caches hc hb]
          at hst
        rw [hst]
        exact ⟨rfl, rfl, rfl⟩
      · rw [processVisitedCell_no_merge cfg line x s caches hc hb] at hst
        rw [hst]
        exact ⟨rfl, rfl, rfl⟩
    obtain ⟨hopen, hruns, hamt⟩ :=
      main (processVisitedCell cfg line x s caches) rfl
    refine ⟨⟨_, hopen, buildNewChar_start _ _ _ _ _ _ _ _ _ _ _⟩, ?_, ?_⟩
    · rw [hruns]
      cases hoc : s.openChar with
      | none => simp [closeChar, hoc]
      | some oc => simp [closeChar, hoc]
    · rintro ⟨e1, e2, e3⟩
      cases hoc : s.openChar with
      | none =>
        rw [hopen, hoc] at e2
        exact Option.noConfusion e2
      | some oc =>
        rw [hruns] at e1
        simp [closeChar, hoc] at e1

/-- Witness for C10: the cursor cell at column 0 produces a run whose
mergeable-cell counter is zero. -/
theorem createRow_cursor_joined_counter_witness :
    (processVisitedCell wCfgCursor wLineJoined 0 (initialRunState 0 [])
      wCaches).1.charCellAmount = 0 :=
  (createRow_cursor_joined_counter wCfgCursor wLineJoined 0
    (initialRunState 0 []) wCaches).1 (Or.inl (by decide))

/-- C7 (code bug): with cells `a`, `b` joined as the range [0, 2) on the
cursor row and the cursor at column 1 — strictly inside the joined
range — the emitted runs carry no cursor class at all, although the
cursor's effective column is indeed relocated to the range start: the
relocation (part_000, lines 339-346) happens only after `isCursorCell`
was computed at line 139, so the cursor-class decision at line 353 uses
the stale value and the joined run misses the cursor box that the code's
own comment (lines 340-342) and the spec promise. With the cursor at
column 0 (the range start) the joined run does carry the cursor class,
and without the joined range the cursor renders normally at column 1. -/
theorem createRow_cursor_inside_joined_range_lost :
    ((createRow wCfgCursor wLineJoined 1 [(0, 2)] wCaches).1.all (fun r =>
        match r with
        | Run.ch cr => !(cr.classes.contains RowClass.cursor)
        | Run.bg _ => true) = true) ∧
    ((processVisitedCell wCfgCursor wLineJoined 0 (initialRunState 1
        [(0, 2)]) wCaches).1.cursorX = 0) ∧
    ((createRow wCfgCursor wLineJoined 0 [(0, 2)] wCaches).1.any (fun r =>
        match r with
        | Run.ch cr => cr.classes.contains RowClass.cursor
        | Run.bg _ => false) = true) ∧
    ((createRow wCfgCursor wLineJoined 1 [] wCaches).1.any (fun r =>
        match r with
        | Run.ch cr => cr.classes.contains RowClass.cursor
        | Run.bg _ => false) = true) := by
  decide


theorem cellView_join_cases (cfg : RowCfg) (line : BufferLine) (x : Nat)
    (s : RunState) (caches : Caches) :
    ((cellView cfg line x s caches).isJoined = false ∧
      (cellView cfg line x s caches).lastCharX = x ∧
      (cellView cfg line x s caches).joinedRest = s.joinedRanges ∧
      (cellView cfg line x s caches).width = (loadCell line x).width) ∨
    (∃ b rest, s.joinedRanges = (x, b) :: rest ∧
      (cellView cfg line x s caches).isJoined = true ∧
      (cellView cfg line x s caches).lastCharX = b - 1 ∧
      (cellView cfg line x s caches).joinedRest = rest ∧
      (cellView cfg line x s caches).width = b - x) := by
  cases hj : s.joinedRanges with
  | nil =>
    left
    refine ⟨?_, ?_, ?_, ?_⟩ <;> simp only [cellView, hj]
  | cons r rest =>
    by_cases hx : x = r.1
    · subst hx
      right
      refine ⟨r.2, rest, ?_, ?_, ?_, ?_, ?_⟩
      · rw [Prod.mk.eta]
      all_goals (simp only [cellView, hj, if_pos rfl]; rfl)
    · left
      refine ⟨?_, ?_, ?_, ?_⟩ <;>
        simp only [cellView, hj, if_neg hx]



theorem closeBg_spanSum (s : RunState)
    (h : s.openBg = none → s.backgroundCellAmount = 0) :
    ((closeBg s).map BgRun.span).sum =
      (s.bgRuns.map BgRun.span).sum + s.backgroundCellAmount := by
  cases hob : s.openBg with
  | none => simp [closeBg, hob, h hob]
  | some ob => simp [closeBg, hob]

theorem stepCmb_openBg_isSome (cfg : RowCfg) (line : BufferLine) (x : Nat)
    (s : RunState) (caches : Caches)
    (hb : stepCmb cfg line x s caches = true) : s.openBg.isSome = true :=
  ((stepCmb_eq_true_iff cfg line x s caches).mp hb).1

theorem stepCmc_not_joined (cfg : RowCfg) (line : BufferLine) (x : Nat)
    (s : RunState) (caches : Caches)
    (hc : stepCmc cfg line x s caches = true) :
    (cellView cfg line x s caches).isJoined = false :=
  ((stepCmc_eq_true_iff cfg line x s caches).mp hc).2.2.2.2.2.2.2.2

theorem processVisitedCell_span_facts (cfg : RowCfg) (line : BufferLine)
    (x : Nat) (s : RunState) (caches : Caches)
    (hok : loopStateOk line s) (hw : (loadCell line x).width ≠ 0) :
    bgSpanSum (processVisitedCell cfg line x s caches).1 =
      bgSpanSum s + (cellView cfg line x s caches).width ∧
    (processVisitedCell cfg line x s caches).2.2 =
      (if (cellView cfg line x s caches).isJoined = true then
        (cellView cfg line x s caches).lastCharX else x) + 1 ∧
    (processVisitedCell cfg line x s caches).1.joinedRanges =
      (cellView cfg line x s caches).joinedRest ∧
    loopStateOk line (processVisitedCell cfg line x s caches).1 := by
  obtain ⟨hok1, hok2, hok3, hok4, hok5⟩ := hok
  have hnext : ∀ h : (cellView cfg line x s caches).isJoined = false,
      (if (cellView cfg line x s caches).isJoined = true then
        (cellView cfg line x s caches).lastCharX else x) + 1 = x + 1 := by
    intro h
    rw [if_neg (by rw [h]; exact Bool.false_ne_true)]
  have hlast : (if (cellView cfg line x s caches).isJoined = true then
      (cellView cfg line x s caches).lastCharX else x) + 1 =
      (cellView cfg line x s caches).lastCharX + 1 := by
    rcases cellView_join_cases cfg line x s caches with
      ⟨h1, h2, h3, h4⟩ | ⟨b, rest, h0, h1, h2, h3, h4⟩
    · rw [if_neg (by rw [h1]; exact Bool.false_ne_true), h2]
    · rw [if_pos h1]
  rcases Bool.eq_false_or_eq_true (stepCmc cfg line x s caches) with
    hc | hc <;>
    rcases Bool.eq_false_or_eq_true (stepCmb cfg line x s caches) with
      hb | hb
  · -- merge both
    rw [processVisitedCell_merge_both cfg line x s caches hc hb]
    refine ⟨?_, ?_, rfl, ?_, ?_, ?_, ?_, ?_⟩
    · simp only [bgSpanSum]
      omega
    · exact (hnext (stepCmc_not_joined cfg line x s caches hc)).symm
    · intro h
      have := stepCmb_openBg_isSome cfg line x s caches hb
      rw [h] at this
      exact absurd this (by simp)
    · exact hok2
    · exact hok3
    · exact hok4
    · exact hok5

  · -- char merge only
    rw [processVisitedCell_merge_char_only cfg line x s caches hc hb]
    refine ⟨?_, ?_, rfl, ?_, ?_, ?_, ?_, ?_⟩
    · simp only [bgSpanSum]
      rw [closeBg_spanSum s hok1]
      try omega
    · exact (hnext (stepCmc_not_joined cfg line x s caches hc)).symm
    · intro h
      exact absurd h (by simp)
    · intro r hr
      simp only [closeBg] at hr
      cases hob : s.openBg with
      | none =>
        rw [hob] at hr
        exact hok2 r hr
      | some ob =>
        rw [hob] at hr
        rcases List.mem_append.mp hr with hr | hr
        · exact hok2 r hr
        · rw [List.mem_singleton.mp hr]
          exact hok4 ob (by rw [hob]; rfl)
    · exact hok3
    · intro ob hob
      cases hob
      exact hw
    · exact hok5
  · -- bg merge only
    rw [processVisitedCell_merge_bg_only cfg line x s caches hc hb]
    refine ⟨?_, ?_, rfl, ?_, ?_, ?_, ?_, ?_⟩
    · simp only [bgSpanSum]
      omega
    · exact hlast.symm
    · intro h
      have := stepCmb_openBg_isSome cfg line x s caches hb
      rw [h] at this
      exact absurd this (by simp)
    · exact hok2
    · intro r hr
      simp only [closeChar] at hr
      cases hoc : s.openChar with
      | none =>
        rw [hoc] at hr
        exact hok3 r hr
      | some oc =>
        rw [hoc] at hr
        rcases List.mem_append.mp hr with hr | hr
        · exact hok3 r hr
        · rw [List.mem_singleton.mp hr]
          exact hok5 oc (by rw [hoc]; rfl)
    · exact hok4
    · intro oc hoc
      cases hoc
      rw [buildNewChar_start]
      exact hw
  · -- no merge
    rw [processVisitedCell_no_merge cfg line x s caches hc hb]
    refine ⟨?_, ?_, rfl, ?_, ?_, ?_, ?_, ?_⟩
    · simp only [bgSpanSum]
      rw [closeBg_spanSum s hok1]
      try omega
    · exact hlast.symm
    · intro h
      exact absurd h (by simp)
    · intro r hr
      simp only [closeBg] at hr
      cases hob : s.openBg with
      | none =>
        rw [hob] at hr
        exact hok2 r hr
      | some ob =>
        rw [hob] at hr
        rcases List.mem_append.mp hr with hr | hr
        · exact hok2 r hr
        · rw [List.mem_singleton.mp hr]
          exact hok4 ob (by rw [hob]; rfl)
    · intro r hr
      simp only [closeChar] at hr
      cases hoc : s.openChar with
      | none =>
        rw [hoc] at hr
        exact hok3 r hr
      | some oc =>
        rw [hoc] at hr
        rcases List.mem_append.mp hr with hr | hr
        · exact hok3 r hr
        · rw [List.mem_singleton.mp hr]
          exact hok5 oc (by rw [hoc]; rfl)
    · intro ob hob
      cases hob
      exact hw
    · intro oc hoc
      cases hoc
      rw [buildNewChar_start]
      exact hw


theorem renderLoop_span (cfg : RowCfg) (line : BufferLine) (L : Nat)
    (hwf : wellFormedWidths line L) :
    ∀ (fuel x : Nat) (s : RunState) (caches : Caches),
    x ≤ L → L ≤ x + fuel →
    (∀ r ∈ s.joinedRanges, r.1 < r.2 ∧ r.2 ≤ L ∧
      (r.2 < L → (loadCell line r.2).width ≠ 0)) →
    loopStateOk line s →
    (if x < L ∧ (loadCell line x).width = 0 then bgSpanSum s = x + 1
     else bgSpanSum s = x) →
    bgSpanSum (renderLoop cfg line L fuel x s caches).1 = L ∧
    loopStateOk line (renderLoop cfg line L fuel x s caches).1 := by
  intro fuel
  induction fuel with
  | zero =>
    intro x s caches hx hfuel hranges hok hinv
    have hxL : x = L := by omega
    subst hxL
    rw [renderLoop]
    rw [if_neg (by omega)] at hinv
    exact ⟨hinv, hok⟩
  | succ fuel ih =>
    intro x s caches hx hfuel hranges hok hinv
    rw [renderLoop]
    by_cases hxl : x < L
    · rw [if_pos hxl]
      by_cases hw0 : (loadCell line x).width = 0
      · rw [if_pos hw0]
        rw [if_pos ⟨hxl, hw0⟩] at hinv
        apply ih (x + 1) s caches (by omega) (by omega) hranges hok
        by_cases h2 : x + 1 < L ∧ (loadCell line (x + 1)).width = 0
        · exfalso
          have hh := (hwf (x + 1) h2.1).2.2 h2.2
          have : (loadCell line (x + 1 - 1)).width = 2 := hh.2
          simp only [Nat.add_sub_cancel] at this
          rw [hw0] at this
          exact absurd this (by omega)
        · rw [if_neg h2]
          exact hinv
      · rw [if_neg hw0]
        dsimp only
        rw [if_neg (by simp [hw0])] at hinv
        obtain ⟨hsum, hnext, hjoined, hok2⟩ :=
          processVisitedCell_span_facts cfg line x s caches hok hw0
        rcases cellView_join_cases cfg line x s caches with
          ⟨hJ, hLast, hRest, hW⟩ | ⟨b, rest, hcons, hJ, hLast, hRest, hW⟩
        · have hnx : (processVisitedCell cfg line x s caches).2.2 =
              x + 1 := by
            rw [hnext, if_neg (by rw [hJ]; exact Bool.false_ne_true)]
          rw [hnx]
          have hw12 := hwf x hxl
          apply ih (x + 1) _ _ (by omega) (by omega) ?_ hok2
          · by_cases h2 : x + 1 < L ∧ (loadCell line (x + 1)).width = 0
            · rw [if_pos h2]
              have hwx : (loadCell line x).width = 2 := by
                have hh := (hwf (x + 1) h2.1).2.2 h2.2
                have := hh.2
                simpa using this
              rw [hsum, hW, hwx, hinv]
            · rw [if_neg h2]
              have hwx : (loadCell line x).width = 1 := by
                rcases Nat.lt_or_ge (loadCell line x).width 2 with h | h
                · omega
                · have h22 : (loadCell line x).width = 2 := by omega
                  exact absurd ⟨(hw12.2.1 h22).1, (hw12.2.1 h22).2⟩ h2
              rw [hsum, hW, hwx, hinv]
          · rw [hjoined, hRest]
            exact hranges
        · have hmem : (x, b) ∈ s.joinedRanges := by
            rw [hcons]
            exact List.mem_cons_self _ _
          obtain ⟨hab, hbL, hbw⟩ := hranges (x, b) hmem
          simp only at hab hbL hbw
          have hnx : (processVisitedCell cfg line x s caches).2.2 = b := by
            rw [hnext, if_pos hJ, hLast]
            omega
          rw [hnx]
          apply ih b _ _ hbL (by omega) ?_ hok2
          · by_cases h2 : b < L ∧ (loadCell line b).width = 0
            · exact absurd h2.2 (hbw h2.1)
            · rw [if_neg h2]
              rw [hsum, hW, hinv]
              omega
          · rw [hjoined, hRest]
            intro r hr
            apply hranges
            rw [hcons]
            exact List.mem_cons_of_mem _ hr
    · rw [if_neg hxl]
      have hxL : x = L := by omega
      rw [if_neg (by omega)] at hinv
      exact ⟨hxL ▸ hinv, hok⟩



theorem bgSpanTotal_of_runs (bgs : List BgRun) (chs : List CharRun) :
    bgSpanTotal (bgs.map Run.bg ++ chs.map Run.ch) =
      (bgs.map BgRun.span).sum := by
  induction bgs with
  | nil =>
    induction chs with
    | nil => rfl
    | cons c cs ihc => simpa [bgSpanTotal] using ihc
  | cons b bs ihb => simpa [bgSpanTotal] using ihb

/-- C6: a zero-width continuation cell (the right half of a wide
character) never independently produces an emitted run — every emitted
background or text run starts at a column holding a nonzero-width cell —
and the sum of the cell-span widths of all emitted background runs equals
the row's effective rendered length, for any well-formed line (wide cells
followed by their zero-width continuation inside the effective length)
and well-formed joined ranges. -/
theorem createRow_zero_width_never_emits (cfg : RowCfg)
    (line : BufferLine) (cursorX : Nat) (joined : List (Nat × Nat))
    (caches : Caches)
    (hwf : wellFormedWidths line (effectiveRowLength cfg.selection line
      cfg.row cfg.isCursorRow cursorX))
    (hr : wellFormedRanges line (effectiveRowLength cfg.selection line
      cfg.row cfg.isCursorRow cursorX) joined) :
    bgSpanTotal (createRow cfg line cursorX joined caches).1 =
      effectiveRowLength cfg.selection line cfg.row cfg.isCursorRow
        cursorX ∧
    (∀ r ∈ (createRow cfg line cursorX joined caches).1,
      (loadCell line (runStart r)).width ≠ 0) := by
  have hmain := renderLoop_span cfg line
    (effectiveRowLength cfg.selection line cfg.row cfg.isCursorRow cursorX)
    hwf
    (effectiveRowLength cfg.selection line cfg.row cfg.isCursorRow cursorX)
    0 (initialRunState cursorX joined) caches
    (Nat.zero_le _) (by omega) (fun r hr2 => hr r hr2)
    (by
      refine ⟨fun _ => rfl, ?_, ?_, ?_, ?_⟩
      · intro r hr2
        exact absurd hr2 (List.not_mem_nil r)
      · intro r hr2
        exact absurd hr2 (List.not_mem_nil r)
      · intro ob hob
        exact absurd hob (by simp [initialRunState])
      · intro oc hoc
        exact absurd hoc (by simp [initialRunState]))
    (by
      by_cases h0 : 0 < effectiveRowLength cfg.selection line cfg.row
          cfg.isCursorRow cursorX ∧ (loadCell line 0).width = 0
      · exfalso
        have := (hwf 0 h0.1).2.2 h0.2
        omega
      · rw [if_neg h0]
        rfl)
  obtain ⟨hsum, hok⟩ := hmain
  obtain ⟨hk1, hk2, hk3, hk4, hk5⟩ := hok
  constructor
  · show bgSpanTotal ((closeBg _).map Run.bg ++ (closeChar _).map Run.ch) =
      _
    rw [bgSpanTotal_of_runs, closeBg_spanSum _ hk1]
    exact hsum
  · intro r hrr
    have hrr2 : r ∈ (closeBg ((renderLoop cfg line
        (effectiveRowLength cfg.selection line cfg.row cfg.isCursorRow
          cursorX)
        (effectiveRowLength cfg.selection line cfg.row cfg.isCursorRow
          cursorX)
        0 (initialRunState cursorX joined) caches).1)).map Run.bg ++
        (closeChar ((renderLoop cfg line
        (effectiveRowLength cfg.selection line cfg.row cfg.isCursorRow
          cursorX)
        (effectiveRowLength cfg.selection line cfg.row cfg.isCursorRow
          cursorX)
        0 (initialRunState cursorX joined) caches).1)).map Run.ch := hrr
    rcases List.mem_append.mp hrr2 with hm | hm
    · obtain ⟨b, hb, hbe⟩ := List.mem_map.mp hm
      subst hbe
      show (loadCell line b.start).width ≠ 0
      simp only [closeBg] at hb
      cases hob : (renderLoop cfg line _ _ 0 (initialRunState cursorX
          joined) caches).1.openBg with
      | none =>
        rw [hob] at hb
        exact hk2 b hb
      | some ob =>
        rw [hob] at hb
        rcases List.mem_append.mp hb with hb | hb
        · exact hk2 b hb
        · rw [List.mem_singleton.mp hb]
          exact hk4 ob (by rw [hob]; rfl)
    · obtain ⟨c, hc, hce⟩ := List.mem_map.mp hm
      subst hce
      show (loadCell line c.start).width ≠ 0
      simp only [closeChar] at hc
      cases hoc : (renderLoop cfg line _ _ 0 (initialRunState cursorX
          joined) caches).1.openChar with
      | none =>
        rw [hoc] at hc
        exact hk3 c hc
      | some oc =>
        rw [hoc] at hc
        rcases List.mem_append.mp hc with hc | hc
        · exact hk3 c hc
        · rw [List.mem_singleton.mp hc]
          exact hk5 oc (by rw [hoc]; rfl)

/-- Witness for C6: a plain three-cell row and a row led by a wide
character both satisfy the span accounting. -/
theorem createRow_zero_width_never_emits_witness :
    bgSpanTotal (createRow wCfg wLineWide 5 [] wCaches).1 =
      effectiveRowLength wCfg.selection wLineWide wCfg.row
        wCfg.isCursorRow 5 ∧
    (∀ r ∈ (createRow wCfg wLineWide 5 [] wCaches).1,
      (loadCell wLineWide (runStart r)).width ≠ 0) :=
  createRow_zero_width_never_emits wCfg wLineWide 5 [] wCaches
    (by unfold wellFormedWidths; decide)
    (by unfold wellFormedRanges; decide)


theorem cacheGetColor_good (c : ContrastCacheState)
    (F : Nat → Nat → Option Nat)
    (h : ∀ e ∈ c, e.2 = F e.1.1 e.1.2) (b f : Nat) (v : Option Nat)
    (hv : cacheGetColor c b f = some v) : v = F b f := by
  unfold cacheGetColor at hv
  cases hf : c.find? (fun e => e.1 == (b, f)) with
  | none =>
    rw [hf] at hv
    exact Option.noConfusion hv
  | some e =>
    rw [hf] at hv
    rw [show Option.map (fun e : (Nat × Nat) × Option Nat => e.2)
      (some e) = some e.2 from rfl] at hv
    have hmem := List.mem_of_find?_eq_some hf
    have hpred : e.1 = (b, f) := by simpa using List.find?_some hf
    have := h e hmem
    rw [hpred] at this
    rw [← Option.some.injEq] at this ⊢
    rw [← hv]
    exact this ▸ rfl

theorem widthCacheGet_good (measure : String → Bool → Bool → Int)
    (wc : List ((String × Bool × Bool) × Int)) (chars : String)
    (bold italic : Bool)
    (h : ∀ e ∈ wc, e.2 = measure e.1.1 e.1.2.1 e.1.2.2) :
    (widthCacheGet measure wc chars bold italic).1 =
      measure chars bold italic ∧
    (∀ e ∈ (widthCacheGet measure wc chars bold italic).2,
      e.2 = measure e.1.1 e.1.2.1 e.1.2.2) := by
  unfold widthCacheGet
  cases hf : wc.find? (fun e => e.1 == (chars, bold, italic)) with
  | none =>
    refine ⟨rfl, ?_⟩
    intro e he
    rcases List.mem_cons.mp he with he | he
    · rw [he]
    · exact h e he
  | some e =>
    have hmem := List.mem_of_find?_eq_some hf
    have hpred : e.1 = (chars, bold, italic) := by
      simpa using List.find?_some hf
    refine ⟨?_, h⟩
    show e.2 = measure chars bold italic
    rw [h e hmem, hpred]



theorem applyMinimumContrast_good (cfg : RowCfg) (caches : Caches)
    (bg fg : Nat) (cell : Cell) (bgOv fgOv : Option Nat)
    (h : cachesGood cfg caches) :
    (applyMinimumContrast cfg.options cfg.ensureContrastRatio caches bg fg
      cell bgOv fgOv).1 =
      pureContrast cfg.options cfg.ensureContrastRatio bg fg cell bgOv
        fgOv ∧
    cachesGood cfg (applyMinimumContrast cfg.options
      cfg.ensureContrastRatio caches bg fg cell bgOv fgOv).2 := by
  obtain ⟨hw, hn, hh⟩ := h
  unfold applyMinimumContrast pureContrast
  by_cases hg : cfg.options.minimumContrastRatio = 1 ∨
      excludeFromContrastRatioDemands cell.code = true
  · rw [if_pos hg, if_pos hg]
    exact ⟨rfl, hw, hn, hh⟩
  · rw [if_neg hg, if_neg hg]
    cases hdim : cell.dim
    · -- cell.dim = false
      simp only [Bool.false_eq_true, if_false]
      by_cases hov : bgOv = none ∧ fgOv = none
      · obtain ⟨h1, h2⟩ := hov
        subst h1
        subst h2
        simp only [if_pos (And.intro rfl rfl)]
        cases hf : cacheGetColor caches.contrastCache bg fg with
        | some v =>
          refine ⟨?_, hw, hn, hh⟩
          have := cacheGetColor_good caches.contrastCache
            (fun b f => cfg.ensureContrastRatio b f
              (cfg.options.minimumContrastRatio / 1)) hn bg fg v hf
          simpa using this
        | none =>
          refine ⟨by simp, hw, ?_, hh⟩
          intro e he
          rcases List.mem_cons.mp he with he | he
          · rw [he]
          · exact hn e he
      · simp only [if_neg hov]
        refine ⟨by simp, hw, ?_, hh⟩
        intro e he
        rcases List.mem_cons.mp he with he | he
        · rw [he]
        · exact hn e he
    · -- cell.dim = true
      simp only [if_true]
      by_cases hov : bgOv = none ∧ fgOv = none
      · obtain ⟨h1, h2⟩ := hov
        subst h1
        subst h2
        simp only [if_pos (And.intro rfl rfl)]
        cases hf : cacheGetColor caches.halfContrastCache bg fg with
        | some v =>
          refine ⟨?_, hw, hn, hh⟩
          have := cacheGetColor_good caches.halfContrastCache
            (fun b f => cfg.ensureContrastRatio b f
              (cfg.options.minimumContrastRatio / 2)) hh bg fg v hf
          simpa using this
        | none =>
          refine ⟨by simp, hw, hn, ?_⟩
          intro e he
          rcases List.mem_cons.mp he with he | he
          · rw [he]
          · exact hh e he
      · simp only [if_neg hov]
        refine ⟨by simp, hw, hn, ?_⟩
        intro e he
        rcases List.mem_cons.mp he with he | he
        · rw [he]
        · exact hh e he



theorem cellView_spacing_good (cfg : RowCfg) (line : BufferLine) (x : Nat)
    (s : RunState) (c : Caches)
    (h : ∀ e ∈ c.widthCache, e.2 = cfg.measureWidth e.1.1 e.1.2.1 e.1.2.2) :
    (cellView cfg line x s c).spacing =
      ((cellView cfg line x s c).cell.width * cfg.cellWidth : Nat) -
        cfg.measureWidth (cellView cfg line x s c).chars
          (cellView cfg line x s c).cell.bold
          (cellView cfg line x s c).cell.italic := by
  have hp : (cellView cfg line x s c).spacing =
      (((cellView cfg line x s c).cell.width * cfg.cellWidth : Nat) : Int) -
        (widthCacheGet cfg.measureWidth c.widthCache
          (cellView cfg line x s c).chars
          (cellView cfg line x s c).cell.bold
          (cellView cfg line x s c).cell.italic).1 := rfl
  rw [hp, (widthCacheGet_good cfg.measureWidth c.widthCache _ _ _ h).1]

theorem cellView_widthCacheAfter_good (cfg : RowCfg) (line : BufferLine)
    (x : Nat) (s : RunState) (c : Caches)
    (h : ∀ e ∈ c.widthCache, e.2 = cfg.measureWidth e.1.1 e.1.2.1 e.1.2.2) :
    ∀ e ∈ (cellView cfg line x s c).widthCacheAfter,
      e.2 = cfg.measureWidth e.1.1 e.1.2.1 e.1.2.2 :=
  (widthCacheGet_good cfg.measureWidth c.widthCache
    (cellView cfg line x s c).chars (cellView cfg line x s c).cell.bold
    (cellView cfg line x s c).cell.italic h).2

theorem cellView_spacing_eq (cfg : RowCfg) (line : BufferLine) (x : Nat)
    (s : RunState) (c1 c2 : Caches)
    (h1 : ∀ e ∈ c1.widthCache, e.2 = cfg.measureWidth e.1.1 e.1.2.1 e.1.2.2)
    (h2 : ∀ e ∈ c2.widthCache,
      e.2 = cfg.measureWidth e.1.1 e.1.2.1 e.1.2.2) :
    (cellView cfg line x s c1).spacing =
      (cellView cfg line x s c2).spacing := by
  rw [cellView_spacing_good cfg line x s c1 h1,
    cellView_spacing_good cfg line x s c2 h2]
  rfl

theorem stepCmc_cache_eq (cfg : RowCfg) (line : BufferLine) (x : Nat)
    (s : RunState) (c1 c2 : Caches)
    (h1 : ∀ e ∈ c1.widthCache, e.2 = cfg.measureWidth e.1.1 e.1.2.1 e.1.2.2)
    (h2 : ∀ e ∈ c2.widthCache,
      e.2 = cfg.measureWidth e.1.1 e.1.2.1 e.1.2.2) :
    stepCmc cfg line x s c1 = stepCmc cfg line x s c2 := by
  unfold stepCmc
  dsimp only
  rw [cellView_spacing_eq cfg line x s c1 c2 h1 h2]
  rfl

theorem stepCmb_cache_eq (cfg : RowCfg) (line : BufferLine) (x : Nat)
    (s : RunState) (c1 c2 : Caches) :
    stepCmb cfg line x s c1 = stepCmb cfg line x s c2 := rfl



theorem buildNewChar_good (cfg : RowCfg) (c1 c2 : Caches)
    (x lastCharX cursorX : Nat) (cell : Cell) (j cc lh : Bool) (sp : Int)
    (paint : CellPaint) (h1 : cachesGood cfg c1) (h2 : cachesGood cfg c2) :
    (buildNewChar cfg c1 x lastCharX cursorX cell j cc lh sp
        paint).openChar =
      (buildNewChar cfg c2 x lastCharX cursorX cell j cc lh sp
        paint).openChar ∧
    cachesGood cfg (buildNewChar cfg c1 x lastCharX cursorX cell j cc lh
      sp paint).caches := by
  unfold buildNewChar
  dsimp only
  cases hm : paint.ov.fgColorMode
  · -- default
    dsimp only
    rw [(applyMinimumContrast_good cfg c1 _ _ cell _ _ h1).1,
      (applyMinimumContrast_good cfg c2 _ _ cell _ _ h2).1]
    cases hpure : pureContrast cfg.options cfg.ensureContrastRatio
        paint.resolvedBg cfg.colors.foreground cell paint.ov.bgOverride
        paint.ov.fgOverride with
    | some c =>
      exact ⟨rfl, (applyMinimumContrast_good cfg c1 _ _ cell _ _ h1).2⟩
    | none =>
      exact ⟨rfl, (applyMinimumContrast_good cfg c1 _ _ cell _ _ h1).2⟩
  · -- p16
    dsimp only
    rw [(applyMinimumContrast_good cfg c1 _ _ cell _ _ h1).1,
      (applyMinimumContrast_good cfg c2 _ _ cell _ _ h2).1]
    cases hpure : pureContrast cfg.options cfg.ensureContrastRatio
        paint.resolvedBg
        (cfg.colors.ansi
          (if cell.bold = true ∧ paint.ov.fg < 8 ∧
              cfg.options.drawBoldTextInBrightColors = true then
            paint.ov.fg + 8
          else paint.ov.fg)) cell paint.ov.bgOverride none with
    | some c =>
      exact ⟨rfl, (applyMinimumContrast_good cfg c1 _ _ cell _ _ h1).2⟩
    | none =>
      exact ⟨rfl, (applyMinimumContrast_good cfg c1 _ _ cell _ _ h1).2⟩
  · -- p256
    dsimp only
    rw [(applyMinimumContrast_good cfg c1 _ _ cell _ _ h1).1,
      (applyMinimumContrast_good cfg c2 _ _ cell _ _ h2).1]
    cases hpure : pureContrast cfg.options cfg.ensureContrastRatio
        paint.resolvedBg
        (cfg.colors.ansi
          (if cell.bold = true ∧ paint.ov.fg < 8 ∧
              cfg.options.drawBoldTextInBrightColors = true then
            paint.ov.fg + 8
          else paint.ov.fg)) cell paint.ov.bgOverride none with
    | some c =>
      exact ⟨rfl, (applyMinimumContrast_good cfg c1 _ _ cell _ _ h1).2⟩
    | none =>
      exact ⟨rfl, (applyMinimumContrast_good cfg c1 _ _ cell _ _ h1).2⟩
  · -- rgb
    dsimp only
    rw [(applyMinimumContrast_good cfg c1 _ _ cell _ _ h1).1,
      (applyMinimumContrast_good cfg c2 _ _ cell _ _ h2).1]
    cases hpure : pureContrast cfg.options cfg.ensureContrastRatio
        paint.resolvedBg
        (toColorRGBA ((paint.ov.fg >>> 16) &&& 0xFF)
          ((paint.ov.fg >>> 8) &&& 0xFF) (paint.ov.fg &&& 0xFF)) cell
        paint.ov.bgOverride paint.ov.fgOverride with
    | some c =>
      exact ⟨rfl, (applyMinimumContrast_good cfg c1 _ _ cell _ _ h1).2⟩
    | none =>
      exact ⟨rfl, (applyMinimumContrast_good cfg c1 _ _ cell _ _ h1).2⟩



theorem processVisitedCell_good (cfg : RowCfg) (line : BufferLine)
    (x : Nat) (s : RunState) (c1 c2 : Caches)
    (h1 : cachesGood cfg c1) (h2 : cachesGood cfg c2) :
    (processVisitedCell cfg line x s c1).1 =
      (processVisitedCell cfg line x s c2).1 ∧
    (processVisitedCell cfg line x s c1).2.2 =
      (processVisitedCell cfg line x s c2).2.2 ∧
    cachesGood cfg (processVisitedCell cfg line x s c1).2.1 := by
  have hsp := cellView_spacing_eq cfg line x s c1 c2 h1.1 h2.1
  have hcm := stepCmc_cache_eq cfg line x s c1 c2 h1.1 h2.1
  have hgood1 : cachesGood cfg
      { c1 with widthCache := (cellView cfg line x s c1).widthCacheAfter } :=
    ⟨cellView_widthCacheAfter_good cfg line x s c1 h1.1, h1.2.1, h1.2.2⟩
  have hgood2 : cachesGood cfg
      { c2 with widthCache := (cellView cfg line x s c2).widthCacheAfter } :=
    ⟨cellView_widthCacheAfter_good cfg line x s c2 h2.1, h2.2.1, h2.2.2⟩
  rcases Bool.eq_false_or_eq_true (stepCmc cfg line x s c1) with hc | hc <;>
    rcases Bool.eq_false_or_eq_true (stepCmb cfg line x s c1) with hb | hb
  · -- merge both
    have hc2 : stepCmc cfg line x s c2 = true := by
      rw [← hcm]
      exact hc
    have hb2 : stepCmb cfg line x s c2 = true := hb
    rw [processVisitedCell_merge_both cfg line x s c1 hc hb,
      processVisitedCell_merge_both cfg line x s c2 hc2 hb2]
    exact ⟨rfl, rfl, hgood1⟩
  · -- char only
    have hc2 : stepCmc cfg line x s c2 = true := by
      rw [← hcm]
      exact hc
    have hb2 : stepCmb cfg line x s c2 = false := hb
    rw [processVisitedCell_merge_char_only cfg line x s c1 hc hb,
      processVisitedCell_merge_char_only cfg line x s c2 hc2 hb2]
    dsimp only
    refine ⟨?_, rfl, hgood1⟩
    rw [hsp]
    rfl
  · -- bg only
    have hc2 : stepCmc cfg line x s c2 = false := by
      rw [← hcm]
      exact hc
    have hb2 : stepCmb cfg line x s c2 = true := hb
    rw [processVisitedCell_merge_bg_only cfg line x s c1 hc hb,
      processVisitedCell_merge_bg_only cfg line x s c2 hc2 hb2]
    dsimp only
    refine ⟨?_, rfl, ?_⟩
    · rw [hsp]
      rw [(buildNewChar_good cfg
        { c1 with widthCache := (cellView cfg line x s c1).widthCacheAfter }
        { c2 with widthCache := (cellView cfg line x s c2).widthCacheAfter }
        x (cellView cfg line x s c1).lastCharX s.cursorX
        (cellView cfg line x s c1).cell
        (cellView cfg line x s c1).isJoined
        (cellView cfg line x s c1).isCursorCell
        (cellView cfg line x s c1).isLinkHover
        (cellView cfg line x s c2).spacing
        (resolveCellPaint cfg.colors cfg.isFocused
          (cellView cfg line x s c1).decorations
          (cellView cfg line x s c1).cell
          (cellView cfg line x s c1).isInSelection) hgood1 hgood2).1]
      rfl
    · exact (buildNewChar_good cfg
        { c1 with widthCache := (cellView cfg line x s c1).widthCacheAfter }
        { c2 with widthCache := (cellView cfg line x s c2).widthCacheAfter }
        x (cellView cfg line x s c1).lastCharX s.cursorX
        (cellView cfg line x s c1).cell
        (cellView cfg line x s c1).isJoined
        (cellView cfg line x s c1).isCursorCell
        (cellView cfg line x s c1).isLinkHover
        (cellView cfg line x s c1).spacing
        (resolveCellPaint cfg.colors cfg.isFocused
          (cellView cfg line x s c1).decorations
          (cellView cfg line x s c1).cell
          (cellView cfg line x s c1).isInSelection) hgood1 hgood2).2
  · -- no merge
    have hc2 : stepCmc cfg line x s c2 = false := by
      rw [← hcm]
      exact hc
    have hb2 : stepCmb cfg line x s c2 = false := hb
    rw [processVisitedCell_no_merge cfg line x s c1 hc hb,
      processVisitedCell_no_merge cfg line x s c2 hc2 hb2]
    dsimp only
    refine ⟨?_, rfl, ?_⟩
    · rw [hsp]
      rw [(buildNewChar_good cfg
        { c1 with widthCache := (cellView cfg line x s c1).widthCacheAfter }
        { c2 with widthCache := (cellView cfg line x s c2).widthCacheAfter }
        x (cellView cfg line x s c1).lastCharX s.cursorX
        (cellView cfg line x s c1).cell
        (cellView cfg line x s c1).isJoined
        (cellView cfg line x s c1).isCursorCell
        (cellView cfg line x s c1).isLinkHover
        (cellView cfg line x s c2).spacing
        (resolveCellPaint cfg.colors cfg.isFocused
          (cellView cfg line x s c1).decorations
          (cellView cfg line x s c1).cell
          (cellView cfg line x s c1).isInSelection) hgood1 hgood2).1]
      rfl
    · exact (buildNewChar_good cfg
        { c1 with widthCache := (cellView cfg line x s c1).widthCacheAfter }
        { c2 with widthCache := (cellView cfg line x s c2).widthCacheAfter }
        x (cellView cfg line x s c1).lastCharX s.cursorX
        (cellView cfg line x s c1).cell
        (cellView cfg line x s c1).isJoined
        (cellView cfg line x s c1).isCursorCell
        (cellView cfg line x s c1).isLinkHover
        (cellView cfg line x s c1).spacing
        (resolveCellPaint cfg.colors cfg.isFocused
          (cellView cfg line x s c1).decorations
          (cellView cfg line x s c1).cell
          (cellView cfg line x s c1).isInSelection) hgood1 hgood2).2



theorem renderLoop_good (cfg : RowCfg) (line : BufferLine) (L : Nat) :
    ∀ (fuel x : Nat) (s : RunState) (c1 c2 : Caches),
    cachesGood cfg c1 → cachesGood cfg c2 →
    (renderLoop cfg line L fuel x s c1).1 =
      (renderLoop cfg line L fuel x s c2).1 ∧
    cachesGood cfg (renderLoop cfg line L fuel x s c1).2 := by
  intro fuel
  induction fuel with
  | zero =>
    intro x s c1 c2 h1 h2
    exact ⟨rfl, h1⟩
  | succ fuel ih =>
    intro x s c1 c2 h1 h2
    rw [renderLoop]
    rw [renderLoop]
    by_cases hxl : x < L
    · rw [if_pos hxl, if_pos hxl]
      by_cases hw0 : (loadCell line x).width = 0
      · rw [if_pos hw0, if_pos hw0]
        exact ih (x + 1) s c1 c2 h1 h2
      · rw [if_neg hw0, if_neg hw0]
        dsimp only
        obtain ⟨hs, hx2, hg⟩ :=
          processVisitedCell_good cfg line x s c1 c2 h1 h2
        have hg2 : cachesGood cfg (processVisitedCell cfg line x s
            c2).2.1 :=
          (processVisitedCell_good cfg line x s c2 c2 h2 h2).2.2
        rw [hs, hx2]
        exact ih _ _ _ _ hg hg2
    · rw [if_neg hxl, if_neg hxl]
      exact ⟨rfl, h1⟩

/-- C9: calling the row render twice with identical inputs (same line
data, cursor, selection, options, theme, and the same joined-range list
each call — the model's range list is an immutable value, so each call
consumes a fresh identical copy) produces structurally identical output
run lists, even though the first call may have populated the shared
contrast and width caches: provided every cache entry is canonical (as
every entry the renderer itself writes is, and as the empty caches
trivially are), the second call's output equals the first's. The shared
scratch cell of the source is modelled by the pure per-iteration reload
`loadCell`, per the spec's design note. -/
theorem createRow_idempotent (cfg : RowCfg) (line : BufferLine)
    (cursorX : Nat) (joined : List (Nat × Nat)) (caches : Caches)
    (h : cachesGood cfg caches) :
    (createRow cfg line cursorX joined
      ((createRow cfg line cursorX joined caches).2)).1 =
    (createRow cfg line cursorX joined caches).1 := by
  unfold createRow
  dsimp only
  have hg2 : cachesGood cfg (renderLoop cfg line
      (effectiveRowLength cfg.selection line cfg.row cfg.isCursorRow
        cursorX)
      (effectiveRowLength cfg.selection line cfg.row cfg.isCursorRow
        cursorX)
      0 (initialRunState cursorX joined) caches).2 :=
    (renderLoop_good cfg line _ _ 0 (initialRunState cursorX joined)
      caches caches h h).2
  have heq := renderLoop_good cfg line
    (effectiveRowLength cfg.selection line cfg.row cfg.isCursorRow
      cursorX)
    (effectiveRowLength cfg.selection line cfg.row cfg.isCursorRow
      cursorX)
    0 (initialRunState cursorX joined)
    ((renderLoop cfg line
      (effectiveRowLength cfg.selection line cfg.row cfg.isCursorRow
        cursorX)
      (effectiveRowLength cfg.selection line cfg.row cfg.isCursorRow
        cursorX)
      0 (initialRunState cursorX joined) caches).2) caches hg2 h
  rw [heq.1]


/-- Witness for C9: rendering a concrete row twice from empty caches
yields the same run list. -/
theorem createRow_idempotent_witness :
    (createRow wCfg wLine 5 []
      ((createRow wCfg wLine 5 [] wCaches).2)).1 =
    (createRow wCfg wLine 5 [] wCaches).1 :=
  createRow_idempotent wCfg wLine 5 [] wCaches
    (⟨fun e he => absurd he (List.not_mem_nil e),
      fun e he => absurd he (List.not_mem_nil e),
      fun e he => absurd he (List.not_mem_nil e)⟩)

end XtermDom
